import Mathlib

/-!
A shallow embedding of `src/mmshandler.cpp` (the `MmsHandler` lifecycle
coordinator of commhistory-daemon) together with proofs about the message
lifecycle state machine, the active-event set, copy-protocol sequencing and
the policy observer.

External collaborators (the history store, the notification presenter, the
transport engine, the filesystem and the grouping logic) are modelled as
explicit state components and oracle parameters: fallible store/copy/group
operations take boolean (or function) oracles describing the collaborator's
answer, and outbound side effects (notifications, cancellation calls,
dispatch calls, file removals) are recorded in logs inside the state.
-/

namespace Mms

/-- Event direction (`CommHistory::Event::EventDirection`). -/
inductive Direction where
  | Inbound
  | Outbound
  deriving DecidableEq, Repr

/-- Event type; only `MMSEvent` matters to this handler
(`CommHistory::Event::EventType`). -/
inductive EventType where
  | MMSEvent
  | OtherEvent
  deriving DecidableEq, Repr

/-- Read status axis (`CommHistory::Event::EventReadStatus`). -/
inductive ReadStatus where
  | ReadStatusUnknown
  | ReadStatusRead
  | ReadStatusDeleted
  deriving DecidableEq, Repr

/-- Message status (`CommHistory::Event::EventStatus`).  The enum itself
lives in the external libcommhistory headers, not in this repository's
sources. -/
inductive EventStatus where
  | UnknownStatus
  | SendingStatus
  | SentStatus
  | DeliveredStatus
  | WaitingStatus
  | DownloadingStatus
  | ReceivedStatus
  | ManualNotificationStatus
  | TemporarilyFailedStatus
  | PermanentlyFailedStatus
  deriving DecidableEq, Repr

/-- Modelled from the spec: the numeric value of each status in the external
`CommHistory::Event::EventStatus` enum (the header is not part of this
repository).  Per the spec, "failure statuses are numerically greater than
in-progress statuses", which is what the threshold comparison
`event.status() >= Event::TemporarilyFailedStatus` in `sendMessage` relies
on. -/
def statusCode : EventStatus → Nat
  | .UnknownStatus => 0
  | .SendingStatus => 1
  | .SentStatus => 2
  | .DeliveredStatus => 3
  | .WaitingStatus => 4
  | .DownloadingStatus => 5
  | .ReceivedStatus => 6
  | .ManualNotificationStatus => 7
  | .TemporarilyFailedStatus => 8
  | .PermanentlyFailedStatus => 9

/-- A message part as handed over by the transport (`MmsPart` in
`mmspart.h`): source file name, MIME content type, content id.  The `text`
field models the textual content of the file at `fileName`; the handler
reads it through `MessagePart::plainTextContent()` after copying. -/
structure MmsPart where
  fileName : String
  contentType : String
  contentId : String
  text : String
  deriving DecidableEq, Repr

/-- A stored message part (`CommHistory::MessagePart`): content id, MIME
type and the path of the copied file.  `text` carries the file content
(the copy in `copyMessagePartFile` preserves the source content, so
`plainTextContent()` on the copy returns the source text). -/
structure MessagePart where
  contentId : String
  contentType : String
  path : String
  text : String
  deriving DecidableEq, Repr

/-- A message record (`CommHistory::Event`), restricted to the fields the
handler reads or writes. -/
structure Event where
  id : Int
  eventType : EventType
  direction : Direction
  status : EventStatus
  startTime : Nat
  endTime : Nat
  localUid : String
  remoteUid : String
  subject : String
  freeText : String
  mmsId : String
  toList : List String
  ccList : List String
  bccList : List String
  messageParts : List MessagePart
  isRead : Bool
  reportRead : Bool
  readStatus : ReadStatus
  groupId : Int
  extraImsi : Option String
  extraExpiry : Option Nat
  extraPushData : Option String
  deriving DecidableEq, Repr

/-- A default-constructed `CommHistory::Event`: invalid id `-1`, everything
else empty/unknown. -/
def defaultEvent : Event where
  id := -1
  eventType := .OtherEvent
  direction := .Inbound
  status := .UnknownStatus
  startTime := 0
  endTime := 0
  localUid := ""
  remoteUid := ""
  subject := ""
  freeText := ""
  mmsId := ""
  toList := []
  ccList := []
  bccList := []
  messageParts := []
  isRead := false
  reportRead := false
  readStatus := .ReadStatusUnknown
  groupId := -1
  extraImsi := none
  extraExpiry := none
  extraPushData := none

/-- Modelled from the spec: the fixed ring account path constant
(`RING_ACCOUNT_PATH` from `constants.h`, which is not part of this
repository's sources); the concrete value is irrelevant to the claims. -/
def RING_ACCOUNT_PATH : String := "/org/freedesktop/Telepathy/Account/ring/tel/ring"

/-- The identity-keyed configuration held by the handler:
`m_sendMessageFlags` and `m_automaticDownload` are `MGConfItem` pointers
that are `NULL` (modelled as `none`) while no subscriber identity is
available. -/
structure Policy where
  sendMessageFlags : Option Int
  automaticDownload : Option Bool
  deriving DecidableEq, Repr

/-- The full handler state: the history store (list of persisted events),
the id the store will assign next, the active-event set `m_activeEvents`,
the cached per-identity configuration, and logs of the outbound side
effects (user notifications shown, transport cancel calls, transport
dispatch calls, files removed, store persist calls). -/
structure MmsState where
  store : List Event
  nextId : Int
  activeEvents : List Int
  policy : Policy
  notifications : List (Int × String)
  cancels : List Int
  dispatches : List (Int × Int)
  removedFiles : List String
  modifyCalls : Nat
  deriving DecidableEq, Repr

/-- The state of a freshly constructed handler over an empty store. -/
def initState (policy : Policy) : MmsState where
  store := []
  nextId := 1
  activeEvents := []
  policy := policy
  notifications := []
  cancels := []
  dispatches := []
  removedFiles := []
  modifyCalls := 0

/-- `SingleEventModel::getEventById`: look a record up by row id. -/
def getEventById (store : List Event) (id : Int) : Option Event :=
  store.find? (fun e => e.id == id)

/-- `SingleEventModel::getEventByTokens(QString(), mmsId, -1)`: look a
record up by its transport correlation token (`mms-id`), in any group. -/
def getEventByMmsId (store : List Event) (mmsId : String) : Option Event :=
  store.find? (fun e => e.mmsId == mmsId)

/-- Successful `modifyEvent`: replace the stored record(s) carrying
`e.id` by `e`. -/
def modifyEventStore (store : List Event) (e : Event) : List Event :=
  store.map (fun x => if x.id == e.id then e else x)

/-- Successful `moveEvent`: move the stored record with the given id to
`newGroup`. -/
def moveEventStore (store : List Event) (id : Int) (newGroup : Int) : List Event :=
  store.map (fun x => if x.id == id then { x with groupId := newGroup } else x)

/-- `QList::removeOne`: remove the first occurrence of `x`, if any. -/
def removeOne (l : List Int) (x : Int) : List Int :=
  l.erase x

/-- Modelled from the spec: `MessageHandlerBase::messagePartPath` (not part
of this repository's sources) derives the destination path of a copied part
from the event id and the content id. -/
def messagePartPath (eventId : Int) (contentId : String) : String :=
  "/parts/" ++ toString eventId ++ "/" ++ contentId

end Mms

namespace Mms

/-- The manual-download decision on line 74 of `mmshandler.cpp`:
`isDataProhibited() ? true : m_automaticDownload ? !m_automaticDownload->value().toBool() : false`.
Note that a `NULL` `m_automaticDownload` (no subscriber identity) yields
`false`, i.e. automatic download. -/
def manualDownloadFor (policy : Policy) (prohibited : Bool) : Bool :=
  if prohibited then true
  else
    match policy.automaticDownload with
    | some b => !b
    | none => false

/-- `MmsHandler::messageNotification`.  `prohibited` is the current value of
`isDataProhibited()`; `groupOf` is the grouping collaborator
(`setGroupForEvent`, resolving a group id from the remote uid, `none` on
failure); `addOk` tells whether `EventModel::addEvent` succeeds.  The first
component of the result models the returned token: `none` is the empty
string, `some i` the string form of row id `i`. -/
def messageNotification (s : MmsState) (prohibited : Bool)
    (groupOf : String → Option Int) (addOk : Bool) (now : Nat)
    (imsi sender subject : String) (expiry : Nat) (pushData : String) :
    Option Int × MmsState :=
  let event := { defaultEvent with
    eventType := .MMSEvent, startTime := now, endTime := now,
    direction := .Inbound, localUid := RING_ACCOUNT_PATH, remoteUid := sender,
    subject := subject, extraImsi := some imsi, extraExpiry := some expiry,
    extraPushData := some pushData }
  let manualDownload := manualDownloadFor s.policy prohibited
  let event := { event with
    status := if manualDownload then .ManualNotificationStatus else .WaitingStatus }
  match groupOf event.remoteUid with
  | none => (none, s)
  | some g =>
    let event := { event with groupId := g }
    if !addOk then (none, s)
    else
      let event := { event with id := s.nextId }
      let s1 := { s with store := s.store ++ [event], nextId := s.nextId + 1 }
      if !manualDownload then
        (some event.id, { s1 with activeEvents := s1.activeEvents ++ [event.id] })
      else
        (none, { s1 with notifications := s1.notifications ++ [(event.id, sender)] })

/-- The status-application tail of `messageReceiveStateChanged` (lines
142-151): on a real status change persist the record, and when the new
status is not Waiting/Downloading prune the active set and notify. -/
def messageReceiveApply (s : MmsState) (modifyOk : Bool) (event : Event)
    (newStatus : EventStatus) : MmsState :=
  if newStatus != event.status then
    let event1 := { event with status := newStatus }
    let s1 := { s with
      modifyCalls := s.modifyCalls + 1,
      store := if modifyOk then modifyEventStore s.store event1 else s.store }
    if newStatus != .WaitingStatus && newStatus != .DownloadingStatus then
      { s1 with
        activeEvents := removeOne s1.activeEvents event1.id,
        notifications := s1.notifications ++ [(event1.id, event1.remoteUid)] }
    else s1
  else s

/-- `MmsHandler::messageReceiveStateChanged`.  The `MessageReceiveState`
codes are Receiving = 0, Deferred = 1, NoSpace = 2, Decoding = 3,
RecvError = 4, Garbage = 5; `modifyOk` tells whether the
`modifyEvent` persist succeeds. -/
def messageReceiveStateChanged (s : MmsState) (modifyOk : Bool) (recId : Int)
    (state : Int) : MmsState :=
  match getEventById s.store recId with
  | none => { s with activeEvents := removeOne s.activeEvents recId }
  | some event =>
    if (state == 2 || state == 4) && event.status == .ManualNotificationStatus then
      s
    else
      messageReceiveApply s modifyOk event
        (if state == 1 then EventStatus.WaitingStatus
         else if state == 0 || state == 3 then .DownloadingStatus
         else if state == 2 || state == 4 then .TemporarilyFailedStatus
         else if state == 5 then .PermanentlyFailedStatus
         else event.status)

/-- The stored part produced by a successful `copyMessagePartFile` of
`part` for event `eventId`: same content id, type and text, path derived
from the event id and content id. -/
def mkCopiedPart (eventId : Int) (part : MmsPart) : MessagePart :=
  { contentId := part.contentId, contentType := part.contentType,
    path := messagePartPath eventId part.contentId, text := part.text }

/-- One step of the free-text accumulation in `copyMmsPartFiles`: the
content of each `text/plain*` part is trimmed and, when non-empty, appended
to the running text, newline separated. -/
def appendFreeText (freeText : String) (msgPart : MessagePart) : String :=
  if msgPart.contentType.startsWith "text/plain" then
    let text := msgPart.text.trim
    if text != "" then
      (if freeText != "" then freeText ++ "\n" ++ text else text)
    else freeText
  else freeText

/-- Result of `copyMmsPartFiles`: success flag plus the by-reference
outputs `eventParts` and `freeText`. -/
structure CopyResult where
  ok : Bool
  eventParts : List MessagePart
  freeText : String
  deriving DecidableEq, Repr

/-- The loop of `MmsHandler::copyMmsPartFiles` with the iteration index made
explicit: `copyOk i` tells whether the i-th `copyMessagePartFile` call
(hard link with copy fallback) succeeds, i.e. returns a non-empty path.
On the first failure the whole batch is aborted, with the parts copied so
far left in `eventParts` for the caller to clean up. -/
def copyMmsPartFilesGo (copyOk : Nat → Bool) (eventId : Int) :
    List MmsPart → Nat → List MessagePart → String → CopyResult
  | [], _, eventParts, freeText => ⟨true, eventParts, freeText⟩
  | part :: rest, i, eventParts, freeText =>
    if !(copyOk i) then ⟨false, eventParts, freeText⟩
    else
      let msgPart := mkCopiedPart eventId part
      copyMmsPartFilesGo copyOk eventId rest (i + 1)
        (eventParts ++ [msgPart]) (appendFreeText freeText msgPart)

/-- `MmsHandler::copyMmsPartFiles`. -/
def copyMmsPartFiles (copyOk : Nat → Bool) (parts : List MmsPart) (eventId : Int) :
    CopyResult :=
  copyMmsPartFilesGo copyOk eventId parts 0 [] ""

/-- The failure cleanup in `messageReceived` (lines 229-245): remove every
already-copied part file, re-fetch the record to avoid wiping concurrent
changes, mark it TemporarilyFailed and show a notification. -/
def messageReceivedCleanup (s : MmsState) (failModifyOk : Bool) (sender : String)
    (cr : CopyResult) (eventId : Int) : MmsState :=
  let s1 := { s with removedFiles := s.removedFiles ++ cr.eventParts.map (fun p => p.path) }
  match getEventById s1.store eventId with
  | none => s1
  | some e2 =>
    let e3 := { e2 with status := .TemporarilyFailedStatus }
    let s2 := { s1 with
      modifyCalls := s1.modifyCalls + 1,
      store := if failModifyOk then modifyEventStore s1.store e3 else s1.store }
    { s2 with notifications := s2.notifications ++ [(e3.id, sender)] }

/-- The part-materialization tail of `messageReceived` (lines 216-248):
copy the parts; on success commit parts and free text and notify; on any
failure fall into the cleanup path. -/
def messageReceivedFinish (s : MmsState) (copyOk : Nat → Bool)
    (modifyOk failModifyOk : Bool) (sender : String) (parts : List MmsPart)
    (event : Event) : MmsState :=
  let cr := copyMmsPartFiles copyOk parts event.id
  if cr.ok then
    let event1 := { event with messageParts := cr.eventParts, freeText := cr.freeText }
    let s1 := { s with
      modifyCalls := s.modifyCalls + 1,
      store := if modifyOk then modifyEventStore s.store event1 else s.store }
    if modifyOk then
      { s1 with notifications := s1.notifications ++ [(event1.id, sender)] }
    else
      messageReceivedCleanup s1 failModifyOk sender cr event1.id
  else
    messageReceivedCleanup s failModifyOk sender cr event.id

/-- `MmsHandler::messageReceived`.  Oracles: `groupOf` models
`setGroupForEvent`, `copyOk` the per-part file copies, `addOk`/`moveOk`/
`modifyOk`/`failModifyOk` the store operations (`addEvent`, `moveEvent`,
the content `modifyEvent` and the failure-path `modifyEvent`). -/
def messageReceived (s : MmsState) (groupOf : String → Option Int)
    (copyOk : Nat → Bool) (addOk moveOk modifyOk failModifyOk : Bool) (now : Nat)
    (recId : Int) (mmsId sender : String) (toL cc : List String) (subj : String)
    (date : Nat) (reportRead : Bool) (parts : List MmsPart) : MmsState :=
  let found := getEventById s.store recId
  let s0 := { s with activeEvents := removeOne s.activeEvents recId }
  let resolved : Option Event :=
    match found with
    | some e => some e
    | none =>
      let e0 := { defaultEvent with
        eventType := .MMSEvent, endTime := now, direction := .Inbound,
        localUid := RING_ACCOUNT_PATH, remoteUid := sender }
      match groupOf e0.remoteUid with
      | none => none
      | some g => some { e0 with groupId := g }
  match resolved with
  | none => s0
  | some e =>
    let e1 := { e with
      subject := subj, startTime := date, mmsId := mmsId, toList := toL,
      ccList := cc, reportRead := reportRead, status := .ReceivedStatus,
      extraImsi := none, extraExpiry := none, extraPushData := none }
    let (e2, s2) :=
      if e1.remoteUid != sender then
        let oldGroup := e1.groupId
        let e1b := { e1 with remoteUid := sender }
        let e1c :=
          match groupOf e1b.remoteUid with
          | some g => { e1b with groupId := g }
          | none => e1b
        if oldGroup != e1c.groupId then
          let s' := if moveOk then
              { s0 with store := moveEventStore s0.store e1c.id e1c.groupId }
            else s0
          (e1c, s')
        else (e1c, s0)
      else (e1, s0)
    if e2.id < 0 then
      if !addOk then s2
      else
        let e3 := { e2 with id := s2.nextId }
        let s3 := { s2 with store := s2.store ++ [e3], nextId := s2.nextId + 1 }
        messageReceivedFinish s3 copyOk modifyOk failModifyOk sender parts e3
    else messageReceivedFinish s2 copyOk modifyOk failModifyOk sender parts e2

end Mms

namespace Mms

/-- `normalizeNumberList` from `mmshandler.cpp`; the external
`CommHistory::normalizePhoneNumber` is passed in as the `normalize`
oracle. -/
def normalizeNumberList (normalize : String → String) (l : List String) : List String :=
  l.map normalize

/-- `MmsHandler::sendMessageFromEvent(Event&)`: read the send flags
(`m_sendMessageFlags`, 0 when unset), record the event id as active and
issue the asynchronous `sendMessage` call to the transport engine (logged
in `dispatches`); the completion arrives later as `sendMessageFinished`. -/
def sendMessageFromEventE (s : MmsState) (event : Event) : MmsState :=
  let flags := s.policy.sendMessageFlags.getD 0
  { s with
    activeEvents := s.activeEvents ++ [event.id],
    dispatches := s.dispatches ++ [(event.id, flags)] }

/-- The final notification gate of `sendMessage` (lines 518-520): notify
when `event.status() >= Event::TemporarilyFailedStatus`, and return the
event id. -/
def sendMessageNotify (s : MmsState) (event : Event) : Int × MmsState :=
  if statusCode event.status >= statusCode .TemporarilyFailedStatus then
    (event.id, { s with notifications := s.notifications ++ [(event.id, event.remoteUid)] })
  else (event.id, s)

/-- The tail of `sendMessage` after the event was persisted (lines
484-520): copy the parts; on success commit them, then either refuse due to
data roaming (TemporarilyFailed) or dispatch; on failure remove the copied
files, re-fetch and mark PermanentlyFailed. -/
def sendMessageTail (s : MmsState) (prohibited : Bool) (copyOk : Nat → Bool)
    (modifyOk failModifyOk prohibModifyOk : Bool) (parts : List MmsPart)
    (event : Event) : Int × MmsState :=
  let cr := copyMmsPartFiles copyOk parts event.id
  let (ok, event1, s1) :=
    if cr.ok then
      let e' := { event with messageParts := cr.eventParts, freeText := cr.freeText }
      (modifyOk, e',
        { s with
          modifyCalls := s.modifyCalls + 1,
          store := if modifyOk then modifyEventStore s.store e' else s.store })
    else (false, event, s)
  if !ok then
    let s2 := { s1 with
      removedFiles := s1.removedFiles ++ cr.eventParts.map (fun p => p.path) }
    let (event2, s3) :=
      if event1.id >= 0 then
        match getEventById s2.store event1.id with
        | some e2 =>
          let e3 := { e2 with status := .PermanentlyFailedStatus }
          (e3, { s2 with
            modifyCalls := s2.modifyCalls + 1,
            store := if failModifyOk then modifyEventStore s2.store e3 else s2.store })
        | none => (event1, s2)
      else (event1, s2)
    sendMessageNotify s3 event2
  else if prohibited then
    let e3 := { event1 with status := .TemporarilyFailedStatus }
    let s3 := { s1 with
      modifyCalls := s1.modifyCalls + 1,
      store := if prohibModifyOk then modifyEventStore s1.store e3 else s1.store }
    sendMessageNotify s3 e3
  else
    sendMessageNotify (sendMessageFromEventE s1 event1) event1

/-- The body of `sendMessage` once the `to[0]` read is known to be in
bounds: `t0` is the first entry of the `to` list `toL`. -/
def sendMessageBody (s : MmsState) (prohibited : Bool) (normalize : String → String)
    (groupOf : String → Option Int) (copyOk : Nat → Bool)
    (addOk modifyOk failModifyOk prohibModifyOk : Bool) (now : Nat) (t0 : String)
    (toL ccL bccL : List String) (subject : String) (parts : List MmsPart) :
    Int × MmsState :=
  let event := { defaultEvent with
    eventType := .MMSEvent, startTime := now, endTime := now,
    direction := .Outbound, localUid := RING_ACCOUNT_PATH, subject := subject,
    status := .SendingStatus, isRead := true,
    remoteUid := normalize t0,
    toList := normalizeNumberList normalize toL,
    ccList := normalizeNumberList normalize ccL,
    bccList := normalizeNumberList normalize bccL }
  if toL.length + ccL.length + bccL.length > 1 then (-1, s)
  else
    match groupOf event.remoteUid with
    | none => (-1, s)
    | some g =>
      let event := { event with groupId := g }
      if !addOk then (-1, s)
      else
        let event := { event with id := s.nextId }
        let s1 := { s with store := s.store ++ [event], nextId := s.nextId + 1 }
        sendMessageTail s1 prohibited copyOk modifyOk failModifyOk
          prohibModifyOk parts event

/-- `MmsHandler::sendMessage`.  The result is `none` when the unconditional
`to[0]` read on line 461 is out of bounds (empty `to` list); otherwise
`some (returnValue, newState)`.  `normalize` models
`CommHistory::normalizePhoneNumber`, `groupOf` models `setGroupForEvent`,
and the boolean oracles model the store operations. -/
def sendMessage (s : MmsState) (prohibited : Bool) (normalize : String → String)
    (groupOf : String → Option Int) (copyOk : Nat → Bool)
    (addOk modifyOk failModifyOk prohibModifyOk : Bool) (now : Nat)
    (toL ccL bccL : List String) (subject : String) (parts : List MmsPart) :
    Option (Int × MmsState) :=
  match toL with
  | [] => none
  | t0 :: _ =>
    some (sendMessageBody s prohibited normalize groupOf copyOk addOk modifyOk
      failModifyOk prohibModifyOk now t0 toL ccL bccL subject parts)

/-- `MmsHandler::sendMessageFromEvent(int)`: re-fetch the record, check it
is a valid outbound MMS with at least one recipient and one part, force its
status back to Sending (persisting when it changed) and dispatch. -/
def sendMessageFromEventId (s : MmsState) (modifyOk : Bool) (eventId : Int) : MmsState :=
  match getEventById s.store eventId with
  | none => s
  | some event =>
    if event.eventType != .MMSEvent || event.direction != .Outbound then s
    else if event.toList.length + event.ccList.length + event.bccList.length < 1 then s
    else if event.messageParts.length < 1 then s
    else if event.status != .SendingStatus then
      let e1 := { event with status := .SendingStatus }
      let s1 := { s with
        modifyCalls := s.modifyCalls + 1,
        store := if modifyOk then modifyEventStore s.store e1 else s.store }
      sendMessageFromEventE s1 e1
    else
      sendMessageFromEventE s event

/-- `MmsHandler::sendMessageFinished`: the completion callback of the
asynchronous transport dispatch.  `idOk` tells whether the `mms-event-id`
property converts to an int; on an error reply the record's status is set
to TemporarilyFailed and a notification is shown; on success the reply
value is stored as the `mms-notification-imsi` extra property.  In both
cases a final `modifyEvent` persist is attempted. -/
def sendMessageFinished (s : MmsState) (idOk : Bool) (eventId : Int)
    (replyError : Bool) (replyValue : String) (modifyOk : Bool) : MmsState :=
  let event := (if idOk then getEventById s.store eventId else none).getD defaultEvent
  let (event1, s1) :=
    if replyError then
      ({ event with status := .TemporarilyFailedStatus },
       { s with notifications := s.notifications ++ [(event.id, event.remoteUid)] })
    else
      ({ event with extraImsi := some replyValue }, s)
  { s1 with
    modifyCalls := s1.modifyCalls + 1,
    store := if modifyOk then modifyEventStore s1.store event1 else s1.store }

/-- `MmsHandler::messageSent`: unconditionally prune the id from the active
set, then mark the record Sent and store the correlation token. -/
def messageSent (s : MmsState) (modifyOk : Bool) (recId : Int) (mmsId : String) :
    MmsState :=
  let found := getEventById s.store recId
  let s0 := { s with activeEvents := removeOne s.activeEvents recId }
  match found with
  | none => s0
  | some event =>
    let e1 := { event with status := .SentStatus, mmsId := mmsId }
    { s0 with
      modifyCalls := s0.modifyCalls + 1,
      store := if modifyOk then modifyEventStore s0.store e1 else s0.store }

/-- `MmsHandler::deliveryReport`, resolved by correlation token.  The
`DeliveryStatus` codes are Indeterminate = 0, Expired = 1, Retrieved = 2,
Rejected = 3, Deferred = 4, Unrecognized = 5, Forwarded = 6. -/
def deliveryReport (s : MmsState) (modifyOk : Bool) (imsi mmsId recipient : String)
    (status : Int) : MmsState :=
  match getEventByMmsId s.store mmsId with
  | none => s
  | some event =>
    let e1 :=
      if status == 1 || status == 3 || status == 5 then
        { event with status := .TemporarilyFailedStatus }
      else if status == 2 then { event with status := .DeliveredStatus }
      else event
    { s with
      modifyCalls := s.modifyCalls + 1,
      store := if modifyOk then modifyEventStore s.store e1 else s.store }

/-- `MmsHandler::readReport`, resolved by correlation token: status code 0
means read, anything else means deleted. -/
def readReport (s : MmsState) (modifyOk : Bool) (imsi mmsId recipient : String)
    (status : Int) : MmsState :=
  match getEventByMmsId s.store mmsId with
  | none => s
  | some event =>
    let e1 :=
      if status == 0 then { event with readStatus := .ReadStatusRead }
      else { event with readStatus := .ReadStatusDeleted }
    { s with
      modifyCalls := s.modifyCalls + 1,
      store := if modifyOk then modifyEventStore s.store e1 else s.store }

/-- `MmsHandler::onDataProhibitedChanged`: when there are active events and
data is now prohibited, send a cancel call to the transport for every
active id (in list order) and clear the set. -/
def onDataProhibitedChanged (s : MmsState) (prohibited : Bool) : MmsState :=
  if s.activeEvents != [] && prohibited then
    { s with cancels := s.cancels ++ s.activeEvents, activeEvents := [] }
  else s

/-- `MmsHandler::onSubscriberIdentityChanged`: when the subscriber identity
is empty both `MGConfItem`s become `NULL` (`none`); otherwise they are
loaded from the identity-scoped configuration namespace, whose current
values are the `cfgSendFlags`/`cfgAutoDownload` oracles. -/
def onSubscriberIdentityChanged (imsi : String) (cfgSendFlags : Int)
    (cfgAutoDownload : Bool) : Policy :=
  if imsi == "" then { sendMessageFlags := none, automaticDownload := none }
  else { sendMessageFlags := some cfgSendFlags, automaticDownload := some cfgAutoDownload }

end Mms

namespace Mms

/-- One external callback into the handler, together with the oracle values
describing the collaborators' behavior during that call.  These are the
handlers named by the Active Set invariant: `messageNotification`,
`messageReceiveStateChanged`, `messageReceived`, `sendMessage`,
`sendMessageFromEvent(int)`, `sendMessageFinished`, `messageSent` and
`onDataProhibitedChanged`. -/
inductive Step where
  | notification (prohibited : Bool) (groupOf : String → Option Int) (addOk : Bool)
      (now : Nat) (imsi sender subject : String) (expiry : Nat) (pushData : String)
  | receiveStateChanged (modifyOk : Bool) (recId : Int) (stateCode : Int)
  | received (groupOf : String → Option Int) (copyOk : Nat → Bool)
      (addOk moveOk modifyOk failModifyOk : Bool) (now : Nat)
      (recId : Int) (mmsId sender : String) (toL cc : List String) (subj : String)
      (date : Nat) (reportRead : Bool) (parts : List MmsPart)
  | send (prohibited : Bool) (normalize : String → String)
      (groupOf : String → Option Int) (copyOk : Nat → Bool)
      (addOk modifyOk failModifyOk prohibModifyOk : Bool) (now : Nat)
      (toL ccL bccL : List String) (subject : String) (parts : List MmsPart)
  | sendFromEventId (modifyOk : Bool) (eventId : Int)
  | sendFinished (idOk : Bool) (eventId : Int) (replyError : Bool)
      (replyValue : String) (modifyOk : Bool)
  | sent (modifyOk : Bool) (recId : Int) (mmsId : String)
  | dataProhibitedChanged (prohibited : Bool)

/-- Interpretation of one step on the handler state.  A `sendMessage` call
with an empty `to` list is undefined behavior in the source (`to[0]` out of
bounds); the step relation leaves the state unchanged in that unreachable
case so that `run` stays total. -/
def step (s : MmsState) : Step → MmsState
  | .notification prohibited groupOf addOk now imsi sender subject expiry pushData =>
    (messageNotification s prohibited groupOf addOk now imsi sender subject expiry pushData).2
  | .receiveStateChanged modifyOk recId stateCode =>
    messageReceiveStateChanged s modifyOk recId stateCode
  | .received groupOf copyOk addOk moveOk modifyOk failModifyOk now recId mmsId sender
      toL cc subj date reportRead parts =>
    messageReceived s groupOf copyOk addOk moveOk modifyOk failModifyOk now recId mmsId
      sender toL cc subj date reportRead parts
  | .send prohibited normalize groupOf copyOk addOk modifyOk failModifyOk prohibModifyOk
      now toL ccL bccL subject parts =>
    match sendMessage s prohibited normalize groupOf copyOk addOk modifyOk failModifyOk
        prohibModifyOk now toL ccL bccL subject parts with
    | some (_, s1) => s1
    | none => s
  | .sendFromEventId modifyOk eventId => sendMessageFromEventId s modifyOk eventId
  | .sendFinished idOk eventId replyError replyValue modifyOk =>
    sendMessageFinished s idOk eventId replyError replyValue modifyOk
  | .sent modifyOk recId mmsId => messageSent s modifyOk recId mmsId
  | .dataProhibitedChanged prohibited => onDataProhibitedChanged s prohibited

/-- Run a sequence of handler calls. -/
def run (s : MmsState) : List Step → MmsState
  | [] => s
  | st :: rest => run (step s st) rest

/-- A status is in progress when it is Waiting, Downloading or Sending. -/
def inProgress (st : EventStatus) : Bool :=
  st == .WaitingStatus || st == .DownloadingStatus || st == .SendingStatus

/-- The id corresponds to a record in the store whose status is in
progress. -/
def eventInProgress (store : List Event) (id : Int) : Bool :=
  match getEventById store id with
  | some e => inProgress e.status
  | none => false

/-- Every id of the list corresponds to a stored record whose status is
Waiting, Downloading or Sending. -/
def ActiveInvL (store : List Event) (active : List Int) : Prop :=
  ∀ id ∈ active, eventInProgress store id = true

/-- The Active Set invariant: every id in `m_activeEvents` corresponds to a
stored record whose status is Waiting, Downloading or Sending. -/
def ActiveInv (s : MmsState) : Prop :=
  ActiveInvL s.store s.activeEvents

instance (store : List Event) (active : List Int) : Decidable (ActiveInvL store active) :=
  inferInstanceAs (Decidable (∀ id ∈ active, eventInProgress store id = true))

instance (s : MmsState) : Decidable (ActiveInv s) :=
  inferInstanceAs (Decidable (ActiveInvL s.store s.activeEvents))

/-- The status of the stored record with the given id, if any. -/
def statusAt (s : MmsState) (id : Int) : Option EventStatus :=
  (getEventById s.store id).map (fun e => e.status)

end Mms

namespace Mms

/-- Well-formedness of the store ids: ids are positive and below the next
id the store will assign.  This holds in every reachable state and makes
freshly assigned ids unique. -/
def storeIdsOkL (store : List Event) (nextId : Int) : Prop :=
  1 ≤ nextId ∧ ∀ e ∈ store, 1 ≤ e.id ∧ e.id < nextId

/-- Well-formedness of the store ids of a state. -/
def storeIdsOk (s : MmsState) : Prop :=
  storeIdsOkL s.store s.nextId

/-- The inductive invariant for the Active Set: well-formed store ids, no
duplicate active ids, and every active id in progress. -/
def GoodState (s : MmsState) : Prop :=
  storeIdsOk s ∧ s.activeEvents.Nodup ∧ ActiveInv s

/-- The side conditions under which a step preserves the Active Set
invariant: retry dispatches (`sendMessageFromEvent(int)`) must persist
successfully and must not target an id that is already active, and
`sendMessageFinished` must not report a transport error (the error branch
sets TemporarilyFailed without pruning the set). -/
def stepOk (s : MmsState) : Step → Prop
  | .sendFromEventId modifyOk eventId => modifyOk = true ∧ eventId ∉ s.activeEvents
  | .sendFinished _ _ replyError _ _ => replyError = false
  | _ => True

/-- Every step of the trace satisfies its side condition in the state where
it runs. -/
def goodTrace (s : MmsState) : List Step → Prop
  | [] => True
  | st :: rest => stepOk s st ∧ goodTrace (step s st) rest

instance (s : MmsState) (st : Step) : Decidable (stepOk s st) := by
  cases st <;> simp only [stepOk] <;> infer_instance

instance goodTraceDecidable (s : MmsState) : (l : List Step) → Decidable (goodTrace s l)
  | [] => .isTrue trivial
  | st :: rest =>
    have : Decidable (goodTrace (step s st) rest) := goodTraceDecidable (step s st) rest
    inferInstanceAs (Decidable (stepOk s st ∧ goodTrace (step s st) rest))

/-- The status table of spec §4.1 for `receiveStateChanged`:
Receiving/Decoding map to Downloading, Deferred to Waiting,
NoSpace/RecvError to TemporarilyFailed (skipped when the current status is
already ManualNotification), Garbage to PermanentlyFailed. -/
def specReceiveStatus (cur : EventStatus) (stateCode : Int) : EventStatus :=
  if stateCode == 0 || stateCode == 3 then .DownloadingStatus
  else if stateCode == 1 then .WaitingStatus
  else if stateCode == 2 || stateCode == 4 then
    (if cur == .ManualNotificationStatus then cur else .TemporarilyFailedStatus)
  else if stateCode == 5 then .PermanentlyFailedStatus
  else cur

/-- Newline-join a list of strings. -/
def joinTexts : List String → String
  | [] => ""
  | [t] => t
  | t :: ts => t ++ "\n" ++ joinTexts ts

/-- The trimmed contents of all `text/plain*` parts, in input order, with
empty ones skipped. -/
def specTextCandidates (parts : List MmsPart) : List String :=
  ((parts.filter (fun p => p.contentType.startsWith "text/plain")).map
    (fun p => p.text.trim)).filter (fun t => t != "")

/-- The free text the spec describes: the trimmed, newline-joined
concatenation of all `text/plain*` parts in input order, skipping empty
ones. -/
def specFreeText (parts : List MmsPart) : String :=
  joinTexts (specTextCandidates parts)

/-- Newline-join a list of strings onto an already accumulated prefix:
the loop invariant shape of the free-text accumulation. -/
def joinFT (ft : String) (ts : List String) : String :=
  match ts with
  | [] => ft
  | t :: ts2 =>
    if ft = "" then joinTexts (t :: ts2) else ft ++ "\n" ++ joinTexts (t :: ts2)

end Mms

namespace Mms

/-- Erase the delivery status field, for frame statements saying a call
changes nothing but the status. -/
def forgetStatus (e : Event) : Event :=
  { e with status := .UnknownStatus }

/-- Erase the read status field, for frame statements saying a call changes
nothing but the read status. -/
def forgetReadStatus (e : Event) : Event :=
  { e with readStatus := .ReadStatusUnknown }

/-- A one-recipient, one-part outbound send with every collaborator
succeeding, used to build concrete traces. -/
def sendOkStep : Step :=
  .send false (fun x => x) (fun _ => some 7) (fun _ => true) true true true true 0
    ["555"] [] [] "subj" [{ fileName := "f", contentType := "text/plain",
                            contentId := "cid", text := "hello" }]

/-- The outbound event record `sendMessage` builds for a single recipient,
as persisted with row id `s.nextId` and group `g`. -/
def sendEventFor (s : MmsState) (normalize : String → String) (rcpt subject : String)
    (now : Nat) (g : Int) : Event :=
  { defaultEvent with
    eventType := .MMSEvent, startTime := now, endTime := now,
    direction := .Outbound, localUid := RING_ACCOUNT_PATH, subject := subject,
    status := .SendingStatus, isRead := true, remoteUid := normalize rcpt,
    toList := [normalize rcpt], ccList := [], bccList := [],
    groupId := g, id := s.nextId }

/-- A one-record state, its record, and a one-part list, used as the
concrete input of the copy round-trip witness. -/
def c4event : Event :=
  { defaultEvent with id := 1, remoteUid := "sender", status := .WaitingStatus }

def c4state : MmsState :=
  { initState { sendMessageFlags := none, automaticDownload := none } with
    store := [c4event], nextId := 2 }

def c4parts : List MmsPart :=
  [{ fileName := "f", contentType := "text/plain", contentId := "cid", text := " hi " }]

theorem getEventById_id {store : List Event} {id : Int} {e : Event}
    (h : getEventById store id = some e) : e.id = id := by
  have h1 := List.find?_some h
  simpa using h1

theorem getEventById_mem {store : List Event} {id : Int} {e : Event}
    (h : getEventById store id = some e) : e ∈ store :=
  List.mem_of_find?_eq_some h

theorem getEventById_append {store l2 : List Event} {id : Int} :
    getEventById (store ++ l2) id = (getEventById store id).or (getEventById l2 id) :=
  List.find?_append

theorem getEventById_cons {x : Event} {xs : List Event} {id : Int} :
    getEventById (x :: xs) id = if x.id == id then some x else getEventById xs id := by
  simp only [getEventById, List.find?]
  by_cases h : x.id == id <;> simp [h]

theorem modifyEventStore_cons {x : Event} {xs : List Event} {e : Event} :
    modifyEventStore (x :: xs) e
      = (if x.id == e.id then e else x) :: modifyEventStore xs e := rfl

theorem getEventById_modify_ne {store : List Event} {e : Event} {id : Int}
    (h : id ≠ e.id) :
    getEventById (modifyEventStore store e) id = getEventById store id := by
  induction store with
  | nil => rfl
  | cons x xs ih =>
    rw [modifyEventStore_cons, getEventById_cons, getEventById_cons]
    by_cases hx : x.id = e.id
    · have h1 : (e.id == id) = false := by simp [Ne.symm h]
      have h2 : (x.id == id) = false := by simp [hx, Ne.symm h]
      simp [hx, h1, h2, ih]
    · have hxf : (x.id == e.id) = false := by simp [hx]
      by_cases h2 : x.id = id
      · simp [hxf, h2, h, ih]
      · have h2f : (x.id == id) = false := by simp [h2]
        simp [hxf, h2f, ih]

theorem getEventById_modify_self {store : List Event} {e e0 : Event}
    (h : getEventById store e.id = some e0) :
    getEventById (modifyEventStore store e) e.id = some e := by
  induction store with
  | nil => simp [getEventById] at h
  | cons x xs ih =>
    rw [getEventById_cons] at h
    rw [modifyEventStore_cons, getEventById_cons]
    by_cases hx : x.id = e.id
    · simp [hx]
    · have hxf : (x.id == e.id) = false := by simp [hx]
      rw [hxf] at h
      simp only [Bool.false_eq_true, if_false] at h
      simp [hxf, ih h]

theorem modifyEventStore_absent : ∀ (store : List Event) (e : Event),
    (∀ x ∈ store, x.id ≠ e.id) → modifyEventStore store e = store
  | [], _, _ => rfl
  | x :: xs, e, h => by
    have hx : (x.id == e.id) = false := by simp [h x (by simp)]
    have ih := modifyEventStore_absent xs e (fun y hy => h y (by simp [hy]))
    rw [modifyEventStore_cons, hx]
    simp [ih]

theorem mem_modifyEventStore {store : List Event} {e y : Event}
    (h : y ∈ modifyEventStore store e) :
    y ∈ store ∨ (y = e ∧ ∃ x ∈ store, x.id = e.id) := by
  unfold modifyEventStore at h
  obtain ⟨x, hx, hfx⟩ := List.mem_map.mp h
  by_cases hid : x.id = e.id
  · right
    refine ⟨?_, x, hx, hid⟩
    simpa [hid] using hfx.symm
  · left
    have : (x.id == e.id) = false := by simp [hid]
    rw [← hfx]
    simpa [this] using hx

theorem getEventById_move_status {store : List Event} {mid g id : Int} :
    (getEventById (moveEventStore store mid g) id).map (fun e => e.status)
      = (getEventById store id).map (fun e => e.status) := by
  induction store with
  | nil => rfl
  | cons x xs ih =>
    show (getEventById ((if x.id == mid then { x with groupId := g } else x)
        :: moveEventStore xs mid g) id).map _ = _
    rw [getEventById_cons, getEventById_cons]
    by_cases hx : x.id = mid
    · subst hx
      by_cases h2 : x.id = id <;> simp [h2, ih]
    · have hxm : (x.id == mid) = false := by simp [hx]
      simp only [hxm, Bool.false_eq_true, if_false]
      by_cases h2 : x.id = id
      · simp [h2]
      · have h2f : (x.id == id) = false := by simp [h2]
        simp [h2f, ih]

theorem mem_moveEventStore {store : List Event} {mid g : Int} {y : Event}
    (h : y ∈ moveEventStore store mid g) :
    ∃ x ∈ store, y.id = x.id ∧ y.status = x.status := by
  unfold moveEventStore at h
  obtain ⟨x, hx, hfx⟩ := List.mem_map.mp h
  by_cases hid : x.id = mid
  · exact ⟨x, hx, by simp [hid, ← hfx]⟩
  · have : (x.id == mid) = false := by simp [hid]
    exact ⟨x, hx, by simp [this, ← hfx]⟩

end Mms

namespace Mms

/-- C6: for every call to `sendMessage` where the total number of
recipients across to, cc and bcc is greater than one (and the `to` list is
non-empty, so the unconditional `to[0]` read is defined), the call returns
-1 and performs no store mutation: the resulting state is exactly the input
state. -/
theorem sendMessage_rejects_group (s : MmsState) (prohibited : Bool)
    (normalize : String → String) (groupOf : String → Option Int) (copyOk : Nat → Bool)
    (addOk modifyOk failModifyOk prohibModifyOk : Bool) (now : Nat)
    (t0 : String) (rest ccL bccL : List String) (subject : String) (parts : List MmsPart)
    (hcount : (t0 :: rest).length + ccL.length + bccL.length > 1) :
    sendMessage s prohibited normalize groupOf copyOk addOk modifyOk failModifyOk
      prohibModifyOk now (t0 :: rest) ccL bccL subject parts = some (-1, s) := by
  simp only [sendMessage]
  unfold sendMessageBody
  rw [if_pos hcount]

theorem sendMessage_rejects_group_witness :
    ((("a" : String) :: ["b"]).length + ([] : List String).length
        + ([] : List String).length > 1)
    ∧ sendMessage (initState { sendMessageFlags := none, automaticDownload := none })
        false (fun x => x) (fun _ => some 1) (fun _ => true) true true true true 0
        ["a", "b"] [] [] "s" []
      = some (-1, initState { sendMessageFlags := none, automaticDownload := none }) :=
  ⟨by decide,
   sendMessage_rejects_group _ _ _ _ _ _ _ _ _ _ "a" ["b"] [] [] "s" [] (by decide)⟩

/-- C10: `sendMessage` reads `to[0]` before any recipient-count check, so
the embedding returns `none` (out-of-bounds read) whenever the `to` list is
empty — even when cc and bcc would trip the more-than-one-recipient
rejection — and returns `some` result for every non-empty `to` list. -/
theorem sendMessage_empty_to (s : MmsState) (prohibited : Bool)
    (normalize : String → String) (groupOf : String → Option Int) (copyOk : Nat → Bool)
    (addOk modifyOk failModifyOk prohibModifyOk : Bool) (now : Nat)
    (ccL bccL : List String) (subject : String) (parts : List MmsPart) :
    (sendMessage s prohibited normalize groupOf copyOk addOk modifyOk failModifyOk
        prohibModifyOk now [] ccL bccL subject parts = none)
    ∧ (∀ (t0 : String) (rest : List String), ∃ out,
        sendMessage s prohibited normalize groupOf copyOk addOk modifyOk failModifyOk
          prohibModifyOk now (t0 :: rest) ccL bccL subject parts = some out) := by
  constructor
  · rfl
  · intro t0 rest
    exact ⟨_, rfl⟩
end Mms

namespace Mms

/-- C8: `messageReceiveStateChanged` with NoSpace (2) or RecvError (4) on a
record whose status is ManualNotification leaves the whole state unchanged:
no status change, no persist call, no notification, no active-set change. -/
theorem receiveStateChanged_manual_frame (s : MmsState) (modifyOk : Bool)
    (recId stateCode : Int) (e : Event)
    (he : getEventById s.store recId = some e)
    (hm : e.status = .ManualNotificationStatus)
    (hc : stateCode = 2 ∨ stateCode = 4) :
    messageReceiveStateChanged s modifyOk recId stateCode = s := by
  unfold messageReceiveStateChanged
  rw [he]
  rcases hc with h | h <;> subst h <;> simp [hm]

theorem receiveStateChanged_manual_frame_witness :
    (getEventById [{ defaultEvent with id := 1, status := .ManualNotificationStatus }] 1
      = some { defaultEvent with id := 1, status := .ManualNotificationStatus })
    ∧ messageReceiveStateChanged
        { initState { sendMessageFlags := none, automaticDownload := none } with
          store := [{ defaultEvent with id := 1, status := .ManualNotificationStatus }],
          nextId := 2 }
        true 1 2
      = { initState { sendMessageFlags := none, automaticDownload := none } with
          store := [{ defaultEvent with id := 1, status := .ManualNotificationStatus }],
          nextId := 2 } :=
  ⟨by decide,
   receiveStateChanged_manual_frame _ true 1 2
     { defaultEvent with id := 1, status := .ManualNotificationStatus }
     (by decide) rfl (Or.inl rfl)⟩

/-- C7 (amended): calling `onDataProhibitedChanged` while data is
prohibited empties the Active Set and appends one cancellation call per
list entry; when the set held no duplicates this is exactly one
cancellation per active id.  (With duplicate entries — reachable through
`sendMessageFromEvent` on an already-active id — an id gets one cancel per
occurrence, not exactly one.) -/
theorem dataProhibited_cancels_all (s : MmsState) :
    (onDataProhibitedChanged s true).activeEvents = []
    ∧ (onDataProhibitedChanged s true).cancels = s.cancels ++ s.activeEvents
    ∧ (s.activeEvents.Nodup → ∀ id ∈ s.activeEvents,
        (onDataProhibitedChanged s true).cancels.count id = s.cancels.count id + 1) := by
  unfold onDataProhibitedChanged
  by_cases h : s.activeEvents = []
  · simp [h]
  · have hne : (s.activeEvents != [] && true) = true := by simp [h]
    rw [if_pos hne]
    refine ⟨rfl, rfl, ?_⟩
    intro hnd id hid
    rw [List.count_append, List.count_eq_one_of_mem hnd hid]

theorem dataProhibited_cancels_all_witness :
    (([3, 5] : List Int).Nodup)
    ∧ (∀ id ∈ ([3, 5] : List Int),
        (onDataProhibitedChanged
          { initState { sendMessageFlags := none, automaticDownload := none } with
            activeEvents := [3, 5] } true).cancels.count id
          = ({ initState { sendMessageFlags := none, automaticDownload := none } with
               activeEvents := [3, 5] } : MmsState).cancels.count id + 1)
    ∧ (onDataProhibitedChanged
        { initState { sendMessageFlags := none, automaticDownload := none } with
          activeEvents := [3, 5] } true).activeEvents = [] :=
  ⟨by decide,
   (dataProhibited_cancels_all
      { initState { sendMessageFlags := none, automaticDownload := none } with
        activeEvents := [3, 5] }).2.2 (by decide),
   (dataProhibited_cancels_all
      { initState { sendMessageFlags := none, automaticDownload := none } with
        activeEvents := [3, 5] }).1⟩

/-- C7 counterexample: a reachable state whose Active Set holds the same id
twice (dispatch via `sendMessage`, then `sendMessageFromEvent` for the same
id), after which the data-prohibited transition issues two cancellation
calls for that single id — not exactly one. -/
theorem dataProhibited_duplicate_counterexample :
    (run (initState { sendMessageFlags := none, automaticDownload := none })
        [sendOkStep, .sendFromEventId true 1]).activeEvents = [1, 1]
    ∧ (run (initState { sendMessageFlags := none, automaticDownload := none })
        [sendOkStep, .sendFromEventId true 1, .dataProhibitedChanged true]).cancels.count 1
      = 2
    ∧ (run (initState { sendMessageFlags := none, automaticDownload := none })
        [sendOkStep, .sendFromEventId true 1, .dataProhibitedChanged true]).activeEvents
      = [] := by
  decide

end Mms

namespace Mms

/-- C2 counterexample: with an empty subscriber identity the cached
auto-download configuration is unset (`none`), but a `messageNotification`
call while data is not prohibited then creates a Waiting record and returns
the non-empty row id token — not a ManualNotification record with an empty
token as claimed. -/
theorem notification_unset_counterexample :
    (onSubscriberIdentityChanged "" 0 true).automaticDownload = none
    ∧ (messageNotification (initState (onSubscriberIdentityChanged "" 0 true)) false
        (fun _ => some 5) true 0 "imsi" "sender" "subj" 0 "data").1 = some 1
    ∧ statusAt
        (messageNotification (initState (onSubscriberIdentityChanged "" 0 true)) false
          (fun _ => some 5) true 0 "imsi" "sender" "subj" 0 "data").2 1
      = some .WaitingStatus := by
  decide

/-- C2 (amended): when the subscriber identity is empty, the cached
auto-download configuration is unset; `messageNotification` then treats
auto-download as enabled, not prohibited: while the configuration is unset
and data is not prohibited (and group resolution and the store save
succeed), the created record's status is Waiting and the returned token is
the non-empty row id, which is added to the Active Set. -/
theorem notification_unset_amended (s : MmsState)
    (groupOf : String → Option Int) (now : Nat) (imsi sender subject : String)
    (expiry : Nat) (pushData : String) (g : Int) (cfgFlags : Int) (cfgAuto : Bool)
    (hpol : s.policy.automaticDownload = none)
    (hg : groupOf sender = some g)
    (hfresh : getEventById s.store s.nextId = none) :
    (onSubscriberIdentityChanged "" cfgFlags cfgAuto).automaticDownload = none
    ∧ (messageNotification s false groupOf true now imsi sender subject expiry pushData).1
      = some s.nextId
    ∧ statusAt
        (messageNotification s false groupOf true now imsi sender subject expiry pushData).2
        s.nextId
      = some .WaitingStatus
    ∧ s.nextId ∈
        (messageNotification s false groupOf true now imsi sender subject expiry
          pushData).2.activeEvents := by
  refine ⟨rfl, ?_⟩
  have hman : manualDownloadFor s.policy false = false := by
    unfold manualDownloadFor
    rw [hpol]
    rfl
  unfold messageNotification
  simp only [hman, hg, Bool.not_true, Bool.not_false, Bool.false_eq_true, if_false,
    if_true]
  refine ⟨by simp, ?_, by simp⟩
  unfold statusAt
  rw [getEventById_append, hfresh]
  simp [getEventById_cons]

theorem notification_unset_amended_witness :
    ((initState { sendMessageFlags := none, automaticDownload := none
        }).policy.automaticDownload = none)
    ∧ ((fun _ : String => (some 7 : Option Int)) "sender" = some 7)
    ∧ (getEventById
        (initState { sendMessageFlags := none, automaticDownload := none }).store
        (initState { sendMessageFlags := none, automaticDownload := none }).nextId
       = none)
    ∧ ((messageNotification
          (initState { sendMessageFlags := none, automaticDownload := none }) false
          (fun _ : String => (some 7 : Option Int)) true 0 "i" "sender" "su" 0 "d").1
        = some (initState { sendMessageFlags := none, automaticDownload := none }).nextId) :=
  ⟨rfl, rfl, rfl,
   (notification_unset_amended
      (initState { sendMessageFlags := none, automaticDownload := none })
      (fun _ : String => (some 7 : Option Int)) 0 "i" "sender" "su" 0 "d" 7 0 true
      rfl rfl rfl).2.1⟩

end Mms

namespace Mms

/-- C5: for every successful `messageNotification` call (group resolution
and the store save succeed): when the call is in manual-download mode the
returned token is empty (`none`) and the persisted record's status is
ManualNotification; when auto-download is enabled and data is not
prohibited, the token is the non-empty row id, the record's status is
Waiting, and the row id is added to the Active Set. -/
theorem notification_outcome (s : MmsState) (prohibited : Bool)
    (groupOf : String → Option Int) (now : Nat) (imsi sender subject : String)
    (expiry : Nat) (pushData : String) (g : Int)
    (hg : groupOf sender = some g)
    (hfresh : getEventById s.store s.nextId = none) :
    (manualDownloadFor s.policy prohibited = true →
      (messageNotification s prohibited groupOf true now imsi sender subject expiry
        pushData).1 = none
      ∧ statusAt
          (messageNotification s prohibited groupOf true now imsi sender subject expiry
            pushData).2 s.nextId
        = some .ManualNotificationStatus)
    ∧ (s.policy.automaticDownload = some true → prohibited = false →
      (messageNotification s prohibited groupOf true now imsi sender subject expiry
        pushData).1 = some s.nextId
      ∧ statusAt
          (messageNotification s prohibited groupOf true now imsi sender subject expiry
            pushData).2 s.nextId
        = some .WaitingStatus
      ∧ s.nextId ∈
          (messageNotification s prohibited groupOf true now imsi sender subject expiry
            pushData).2.activeEvents) := by
  constructor
  · intro hman
    unfold messageNotification
    simp only [hman, hg, Bool.not_true, Bool.not_false, Bool.false_eq_true, if_false,
      if_true]
    refine ⟨by simp, ?_⟩
    unfold statusAt
    rw [getEventById_append, hfresh]
    simp [getEventById_cons]
  · intro hauto hproh
    subst hproh
    have hman : manualDownloadFor s.policy false = false := by
      unfold manualDownloadFor
      rw [hauto]
      rfl
    unfold messageNotification
    simp only [hman, hg, Bool.not_true, Bool.not_false, Bool.false_eq_true, if_false,
      if_true]
    refine ⟨by simp, ?_, by simp⟩
    unfold statusAt
    rw [getEventById_append, hfresh]
    simp [getEventById_cons]

theorem notification_outcome_witness :
    ((fun _ : String => (some 9 : Option Int)) "sender" = some 9)
    ∧ (getEventById
        (initState { sendMessageFlags := none, automaticDownload := some true }).store
        (initState { sendMessageFlags := none, automaticDownload := some true }).nextId
       = none)
    ∧ ((initState { sendMessageFlags := none, automaticDownload := some true
         }).policy.automaticDownload = some true)
    ∧ ((messageNotification
          (initState { sendMessageFlags := none, automaticDownload := some true }) false
          (fun _ : String => (some 9 : Option Int)) true 0 "i" "sender" "su" 0 "d").1
        = some
          (initState { sendMessageFlags := none, automaticDownload := some true
            }).nextId) :=
  ⟨rfl, rfl, rfl,
   ((notification_outcome
      (initState { sendMessageFlags := none, automaticDownload := some true }) false
      (fun _ : String => (some 9 : Option Int)) 0 "i" "sender" "su" 0 "d" 9
      rfl rfl).2 rfl rfl).1⟩

end Mms

namespace Mms

theorem getEventById_of_mem {store : List Event}
    (hu : store.Pairwise (fun a b => a.id ≠ b.id)) {e : Event} (he : e ∈ store) :
    getEventById store e.id = some e := by
  induction store with
  | nil => cases he
  | cons x xs ih =>
    rw [getEventById_cons]
    rcases List.mem_cons.mp he with h | h
    · subst h
      simp
    · have hne : x.id ≠ e.id := (List.pairwise_cons.mp hu).1 e h
      have hxf : (x.id == e.id) = false := by simp [hne]
      rw [hxf]
      simp only [Bool.false_eq_true, if_false]
      exact ih (List.pairwise_cons.mp hu).2 h

theorem map_modifyEventStore (g : Event → Event) :
    ∀ (store : List Event) (e1 e : Event),
      store.Pairwise (fun a b => a.id ≠ b.id) →
      getEventById store e1.id = some e → g e1 = g e →
      (modifyEventStore store e1).map g = store.map g
  | [], e1, e, _, hf, _ => by simp [getEventById] at hf
  | x :: xs, e1, e, hp, hf, hg => by
    rw [getEventById_cons] at hf
    rw [modifyEventStore_cons]
    by_cases hx : x.id = e1.id
    · have hxt : (x.id == e1.id) = true := by simp [hx]
      rw [hxt] at hf
      simp only [if_true] at hf
      have hxe : x = e := by simpa using hf
      have habs : modifyEventStore xs e1 = xs :=
        modifyEventStore_absent xs e1 (fun y hy => by
          have h1 := (List.pairwise_cons.mp hp).1 y hy
          rw [hx] at h1
          exact Ne.symm h1)
      simp only [hxt, if_true, List.map_cons, habs]
      rw [hg, hxe]
    · have hxf : (x.id == e1.id) = false := by simp [hx]
      rw [hxf] at hf
      simp only [Bool.false_eq_true, if_false] at hf
      have ih := map_modifyEventStore g xs e1 e (List.pairwise_cons.mp hp).2 hf hg
      simp only [hxf, Bool.false_eq_true, if_false, List.map_cons, ih]

end Mms

namespace Mms

/-- C9: `deliveryReport` and `readReport` never touch the Active Set and
never raise a notification, for every status code; they change at most the
resolved record's delivery status (respectively read status), and when the
correlation token is unknown they change nothing at all.  The hypothesis
says stored row ids are unique, which every reachable store satisfies. -/
theorem reports_frame (s : MmsState) (modifyOk : Bool)
    (imsi mmsId recipient : String) (code : Int)
    (hu : s.store.Pairwise (fun a b => a.id ≠ b.id)) :
    ((deliveryReport s modifyOk imsi mmsId recipient code).activeEvents = s.activeEvents)
    ∧ ((deliveryReport s modifyOk imsi mmsId recipient code).notifications
        = s.notifications)
    ∧ ((deliveryReport s modifyOk imsi mmsId recipient code).store.map forgetStatus
        = s.store.map forgetStatus)
    ∧ (getEventByMmsId s.store mmsId = none →
        deliveryReport s modifyOk imsi mmsId recipient code = s)
    ∧ ((readReport s modifyOk imsi mmsId recipient code).activeEvents = s.activeEvents)
    ∧ ((readReport s modifyOk imsi mmsId recipient code).notifications = s.notifications)
    ∧ ((readReport s modifyOk imsi mmsId recipient code).store.map forgetReadStatus
        = s.store.map forgetReadStatus)
    ∧ (getEventByMmsId s.store mmsId = none →
        readReport s modifyOk imsi mmsId recipient code = s) := by
  cases hf : getEventByMmsId s.store mmsId with
  | none =>
    unfold deliveryReport readReport
    rw [hf]
    exact ⟨rfl, rfl, rfl, fun _ => rfl, rfl, rfl, rfl, fun _ => rfl⟩
  | some e =>
    have hmem : e ∈ s.store := List.mem_of_find?_eq_some hf
    unfold deliveryReport readReport
    rw [hf]
    cases modifyOk with
    | false =>
      refine ⟨rfl, rfl, rfl, ?_, rfl, rfl, rfl, ?_⟩ <;>
        (intro h; exact absurd h (by simp))
    | true =>
      refine ⟨rfl, rfl, ?_, ?_, rfl, rfl, ?_, ?_⟩
      · show (modifyEventStore s.store _).map forgetStatus = s.store.map forgetStatus
        apply map_modifyEventStore forgetStatus s.store _ e hu
        · have hid : (if code == 1 || code == 3 || code == 5 then
              { e with status := EventStatus.TemporarilyFailedStatus }
            else if code == 2 then { e with status := EventStatus.DeliveredStatus }
            else e).id = e.id := by
            split
            · rfl
            · split <;> rfl
          rw [hid]
          exact getEventById_of_mem hu hmem
        · split
          · rfl
          · split <;> rfl
      · intro h
        exact absurd h (by simp)
      · show (modifyEventStore s.store _).map forgetReadStatus
          = s.store.map forgetReadStatus
        apply map_modifyEventStore forgetReadStatus s.store _ e hu
        · have hid : (if code == 0 then { e with readStatus := ReadStatus.ReadStatusRead }
            else { e with readStatus := ReadStatus.ReadStatusDeleted }).id = e.id := by
            split <;> rfl
          rw [hid]
          exact getEventById_of_mem hu hmem
        · split <;> rfl
      · intro h
        exact absurd h (by simp)

theorem reports_frame_witness :
    (([{ defaultEvent with id := 1, mmsId := "tok" }] : List Event).Pairwise
      (fun a b => a.id ≠ b.id))
    ∧ ((deliveryReport
        { initState { sendMessageFlags := none, automaticDownload := none } with
          store := [{ defaultEvent with id := 1, mmsId := "tok" }], nextId := 2 }
        true "i" "tok" "r" 2).activeEvents
      = ({ initState { sendMessageFlags := none, automaticDownload := none } with
           store := [{ defaultEvent with id := 1, mmsId := "tok" }],
           nextId := 2 } : MmsState).activeEvents) :=
  ⟨by simp,
   (reports_frame
      { initState { sendMessageFlags := none, automaticDownload := none } with
        store := [{ defaultEvent with id := 1, mmsId := "tok" }], nextId := 2 }
      true "i" "tok" "r" 2 (by simp)).1⟩

end Mms

namespace Mms

theorem specReceiveStatus_idem (st : EventStatus) (c : Int) :
    specReceiveStatus (specReceiveStatus st c) c = specReceiveStatus st c := by
  unfold specReceiveStatus
  by_cases h03 : (c == 0 || c == 3) = true
  · simp [h03]
  · by_cases h1 : (c == 1) = true
    · simp [h03, h1]
    · by_cases h24 : (c == 2 || c == 4) = true
      · by_cases hm : (st == EventStatus.ManualNotificationStatus) = true
        · simp [h03, h1, h24, hm]
        · simp [h03, h1, h24, hm]
      · by_cases h5 : (c == 5) = true
        · simp [h03, h1, h24, h5]
        · simp [h03, h1, h24, h5]

theorem receiveStateChanged_noop (s : MmsState) (recId c : Int) (e : Event)
    (he : getEventById s.store recId = some e)
    (hspec : specReceiveStatus e.status c = e.status)
    (h0 : 0 ≤ c) (h5 : c ≤ 5) :
    messageReceiveStateChanged s true recId c = s := by
  unfold messageReceiveStateChanged messageReceiveApply
  rw [he]
  unfold specReceiveStatus at hspec
  interval_cases c
  · simp at hspec
    simp [← hspec]
  · simp at hspec
    simp [← hspec]
  · by_cases hm : (e.status == EventStatus.ManualNotificationStatus) = true
    · simp [hm]
    · simp [hm] at hspec
      simp [hm, ← hspec]
  · simp at hspec
    simp [← hspec]
  · by_cases hm : (e.status == EventStatus.ManualNotificationStatus) = true
    · simp [hm]
    · simp [hm] at hspec
      simp [hm, ← hspec]
  · simp at hspec
    simp [← hspec]

end Mms

namespace Mms

theorem receiveStateChanged_move (s : MmsState) (recId c : Int) (e : Event)
    (he : getEventById s.store recId = some e)
    (hspec : specReceiveStatus e.status c ≠ e.status)
    (h0 : 0 ≤ c) (h5 : c ≤ 5) :
    getEventById (messageReceiveStateChanged s true recId c).store recId
      = some { e with status := specReceiveStatus e.status c }
    ∧ (messageReceiveStateChanged s true recId c).modifyCalls = s.modifyCalls + 1 := by
  have hid : e.id = recId := getEventById_id he
  subst hid
  have hmod : ∀ st : EventStatus,
      getEventById (modifyEventStore s.store { e with status := st }) e.id
        = some { e with status := st } := fun st =>
    @getEventById_modify_self s.store { e with status := st } e he
  unfold messageReceiveStateChanged messageReceiveApply
  rw [he]
  unfold specReceiveStatus at hspec ⊢
  interval_cases c
  · simp only [show ((0 : Int) == 0 || (0 : Int) == 3) = true from rfl, if_true] at hspec ⊢
    have hne : (EventStatus.DownloadingStatus != e.status) = true := by
      simpa using hspec
    simp only [show ((0 : Int) == 2 || (0 : Int) == 4) = false from rfl, Bool.false_and,
      Bool.false_eq_true, if_false, hne, if_true]
    simp [hmod, hspec]
  · simp only [show ¬((1 : Int) == 0 || (1 : Int) == 3) = true from by decide,
      if_neg, show ((1 : Int) == 1) = true from rfl, if_true] at hspec ⊢
    have hne : (EventStatus.WaitingStatus != e.status) = true := by simpa using hspec
    simp only [show ((1 : Int) == 2 || (1 : Int) == 4) = false from rfl, Bool.false_and,
      Bool.false_eq_true, if_false, hne, if_true]
    simp [hmod, hspec]
  · by_cases hm : (e.status == EventStatus.ManualNotificationStatus) = true
    · rw [if_neg (by decide), if_neg (by decide), if_pos (by decide), if_pos hm] at hspec
      exact absurd rfl hspec
    · rw [if_neg (by decide), if_neg (by decide), if_pos (by decide), if_neg (by
        simp [hm])] at hspec
      have hne : (EventStatus.TemporarilyFailedStatus != e.status) = true := by
        simpa using hspec
      simp only [show ((2 : Int) == 2 || (2 : Int) == 4) = true from rfl, Bool.true_and,
        hm, Bool.false_eq_true, if_false, hne, if_true]
      simp [hmod, hspec]
  · simp only [show ((3 : Int) == 0 || (3 : Int) == 3) = true from rfl, if_true] at hspec ⊢
    have hne : (EventStatus.DownloadingStatus != e.status) = true := by simpa using hspec
    simp only [show ((3 : Int) == 2 || (3 : Int) == 4) = false from rfl, Bool.false_and,
      Bool.false_eq_true, if_false, hne, if_true]
    simp [hmod, hspec]
  · by_cases hm : (e.status == EventStatus.ManualNotificationStatus) = true
    · rw [if_neg (by decide), if_neg (by decide), if_pos (by decide), if_pos hm] at hspec
      exact absurd rfl hspec
    · rw [if_neg (by decide), if_neg (by decide), if_pos (by decide), if_neg (by
        simp [hm])] at hspec
      have hne : (EventStatus.TemporarilyFailedStatus != e.status) = true := by
        simpa using hspec
      simp only [show ((4 : Int) == 2 || (4 : Int) == 4) = true from rfl, Bool.true_and,
        hm, Bool.false_eq_true, if_false, hne, if_true]
      simp [hmod, hspec]
  · rw [if_neg (by decide), if_neg (by decide), if_neg (by decide), if_pos (by decide)]
      at hspec
    have hne : (EventStatus.PermanentlyFailedStatus != e.status) = true := by
      simpa using hspec
    simp only [show ((5 : Int) == 2 || (5 : Int) == 4) = false from rfl, Bool.false_and,
      Bool.false_eq_true, if_false, hne, if_true]
    simp [hmod, hspec]

end Mms

namespace Mms

/-- C3: for every stateCode 0..5 passed to `messageReceiveStateChanged` on
an existing record, the resulting stored status is exactly the §4.1 table
(Receiving/Decoding to Downloading, Deferred to Waiting, NoSpace/RecvError
to TemporarilyFailed with the ManualNotification skip, Garbage to
PermanentlyFailed); and for a stateCode whose mapped status differs from
the current one, calling twice with that stateCode makes exactly one
persist call on the first invocation and zero on the second. -/
theorem receiveStateChanged_table (s : MmsState) (recId c : Int) (e : Event)
    (he : getEventById s.store recId = some e)
    (h0 : 0 ≤ c) (h5 : c ≤ 5) :
    statusAt (messageReceiveStateChanged s true recId c) recId
      = some (specReceiveStatus e.status c)
    ∧ (specReceiveStatus e.status c ≠ e.status →
        (messageReceiveStateChanged s true recId c).modifyCalls = s.modifyCalls + 1
        ∧ (messageReceiveStateChanged (messageReceiveStateChanged s true recId c) true
            recId c).modifyCalls
          = (messageReceiveStateChanged s true recId c).modifyCalls) := by
  by_cases hspec : specReceiveStatus e.status c = e.status
  · rw [receiveStateChanged_noop s recId c e he hspec h0 h5]
    constructor
    · unfold statusAt
      rw [he]
      simp [hspec]
    · intro hne
      exact absurd hspec hne
  · obtain ⟨hlook, hcount⟩ := receiveStateChanged_move s recId c e he hspec h0 h5
    refine ⟨?_, fun _ => ⟨hcount, ?_⟩⟩
    · unfold statusAt
      rw [hlook]
      rfl
    · have hspec2 : specReceiveStatus
          ({ e with status := specReceiveStatus e.status c } : Event).status c
          = ({ e with status := specReceiveStatus e.status c } : Event).status := by
        show specReceiveStatus (specReceiveStatus e.status c) c
          = specReceiveStatus e.status c
        exact specReceiveStatus_idem e.status c
      rw [receiveStateChanged_noop _ recId c _ hlook hspec2 h0 h5]

theorem receiveStateChanged_table_witness :
    (getEventById
        ({ initState { sendMessageFlags := none, automaticDownload := none } with
            store := [{ defaultEvent with id := 1, status := .WaitingStatus }],
            nextId := 2 } : MmsState).store 1
      = some { defaultEvent with id := 1, status := .WaitingStatus })
    ∧ ((0 : Int) ≤ 0) ∧ ((0 : Int) ≤ 5)
    ∧ statusAt
        (messageReceiveStateChanged
          { initState { sendMessageFlags := none, automaticDownload := none } with
            store := [{ defaultEvent with id := 1, status := .WaitingStatus }],
            nextId := 2 }
          true 1 0) 1
      = some (specReceiveStatus
          ({ defaultEvent with id := 1, status := .WaitingStatus } : Event).status 0) :=
  ⟨by decide, by decide, by decide,
   (receiveStateChanged_table
      { initState { sendMessageFlags := none, automaticDownload := none } with
        store := [{ defaultEvent with id := 1, status := .WaitingStatus }], nextId := 2 }
      1 0 { defaultEvent with id := 1, status := .WaitingStatus }
      (by decide) (by decide) (by decide)).1⟩

end Mms

namespace Mms

theorem string_append_ne_empty (a b : String) (h : a ≠ "") : a ++ b ≠ "" := by
  intro hc
  apply h
  have h1 := congrArg String.length hc
  rw [String.length_append] at h1
  have h0 : ("" : String).length = 0 := rfl
  rw [h0] at h1
  have h2 : a.length = 0 := by omega
  exact String.ext (List.length_eq_zero.mp h2)

theorem joinFT_step (ft t : String) (ts : List String) (ht : t ≠ "") :
    joinFT ft (t :: ts) = joinFT (if ft = "" then t else ft ++ "\n" ++ t) ts := by
  cases ts with
  | nil =>
    by_cases hft : ft = "" <;> simp [joinFT, joinTexts, hft]
  | cons h2 ts2 =>
    by_cases hft : ft = ""
    · simp only [joinFT, hft, if_pos, if_true]
      rw [if_neg ht]
      rfl
    · simp only [joinFT, hft, if_neg, if_false]
      rw [if_neg (string_append_ne_empty _ _ (string_append_ne_empty _ _ hft))]
      show ft ++ "\n" ++ (t ++ "\n" ++ joinTexts (h2 :: ts2)) = _
      simp [String.append_assoc]
end Mms

namespace Mms

theorem specTextCandidates_cons (p : MmsPart) (rest : List MmsPart) :
    specTextCandidates (p :: rest)
      = if (p.contentType.startsWith "text/plain" && p.text.trim != "") = true then
          p.text.trim :: specTextCandidates rest
        else specTextCandidates rest := by
  unfold specTextCandidates
  rw [List.filter_cons]
  by_cases h1 : p.contentType.startsWith "text/plain" = true
  · rw [if_pos h1, List.map_cons, List.filter_cons]
    by_cases h2 : (p.text.trim != "") = true
    · rw [if_pos h2, if_pos (by simp [h1, h2])]
    · rw [if_neg h2, if_neg (by simp [h2])]
  · rw [if_neg h1, if_neg (by simp [h1])]

theorem appendFreeText_mk (ft : String) (eid : Int) (p : MmsPart) :
    appendFreeText ft (mkCopiedPart eid p)
      = if (p.contentType.startsWith "text/plain" && p.text.trim != "") = true then
          (if ft != "" then ft ++ "\n" ++ p.text.trim else p.text.trim)
        else ft := by
  unfold appendFreeText mkCopiedPart
  by_cases h1 : p.contentType.startsWith "text/plain" = true
  · by_cases h2 : (p.text.trim != "") = true
    · simp [h1, h2]
    · simp [h1, h2]
  · simp [h1]

end Mms

namespace Mms

theorem copyGo_all_ok (eid : Int) :
    ∀ (parts : List MmsPart) (i : Nat) (acc : List MessagePart) (ft : String),
      copyMmsPartFilesGo (fun _ => true) eid parts i acc ft
        = ⟨true, acc ++ parts.map (mkCopiedPart eid), joinFT ft (specTextCandidates parts)⟩
  | [], i, acc, ft => by
    simp [copyMmsPartFilesGo, joinFT, specTextCandidates]
  | p :: rest, i, acc, ft => by
    rw [copyMmsPartFilesGo]
    simp only [Bool.not_true, Bool.false_eq_true, if_false]
    rw [copyGo_all_ok eid rest (i + 1) (acc ++ [mkCopiedPart eid p])
      (appendFreeText ft (mkCopiedPart eid p))]
    rw [specTextCandidates_cons, appendFreeText_mk]
    by_cases hk : (p.contentType.startsWith "text/plain" && p.text.trim != "") = true
    · have ht : p.text.trim ≠ "" := by
        have hparts := (Bool.and_eq_true _ _).mp hk
        simpa using hparts.2
      rw [if_pos hk, if_pos hk, joinFT_step _ _ _ ht]
      by_cases hft : ft = ""
      · simp [hft, List.append_assoc]
      · have hft2 : (ft != "") = true := by simpa using hft
        simp [hft2, hft, List.append_assoc]
    · rw [if_neg hk, if_neg hk]
      simp [List.append_assoc]

theorem copyMmsPartFiles_all_ok (parts : List MmsPart) (eid : Int) :
    copyMmsPartFiles (fun _ => true) parts eid
      = ⟨true, parts.map (mkCopiedPart eid), specFreeText parts⟩ := by
  unfold copyMmsPartFiles specFreeText
  rw [copyGo_all_ok]
  simp only [List.nil_append]
  cases hc : specTextCandidates parts with
  | nil => rfl
  | cons t ts => simp [joinFT]

end Mms

namespace Mms

theorem copyGo_fail (eid : Int) :
    ∀ (parts : List MmsPart) (k i : Nat) (acc : List MessagePart) (ft : String)
      (copyOk : Nat → Bool),
      k < parts.length →
      (∀ j, j < k → copyOk (i + j) = true) →
      copyOk (i + k) = false →
      (copyMmsPartFilesGo copyOk eid parts i acc ft).ok = false
      ∧ (copyMmsPartFilesGo copyOk eid parts i acc ft).eventParts
        = acc ++ (parts.take k).map (mkCopiedPart eid)
  | [], k, i, acc, ft, copyOk, hk, _, _ => by simp at hk
  | p :: rest, 0, i, acc, ft, copyOk, hk, hok, hfail => by
    rw [copyMmsPartFilesGo]
    have hf : copyOk i = false := by simpa using hfail
    rw [hf]
    simp
  | p :: rest, k + 1, i, acc, ft, copyOk, hk, hok, hfail => by
    rw [copyMmsPartFilesGo]
    have h0 : copyOk i = true := by
      have hh := hok 0 (Nat.succ_pos k)
      simpa using hh
    rw [h0]
    simp only [Bool.not_true, Bool.false_eq_true, if_false]
    have ih := copyGo_fail eid rest k (i + 1) (acc ++ [mkCopiedPart eid p])
      (appendFreeText ft (mkCopiedPart eid p)) copyOk
      (by simpa using Nat.lt_of_succ_lt_succ hk)
      (fun j hj => by
        have he : i + 1 + j = i + (j + 1) := by omega
        rw [he]
        exact hok (j + 1) (Nat.succ_lt_succ hj))
      (by
        have he : i + 1 + k = i + (k + 1) := by omega
        rw [he]
        exact hfail)
    refine ⟨ih.1, ?_⟩
    rw [ih.2]
    simp [List.append_assoc]

theorem copyMmsPartFiles_fail (parts : List MmsPart) (eid : Int) (k : Nat)
    (hk : k < parts.length) :
    (copyMmsPartFiles (fun i => decide (i < k)) parts eid).ok = false
    ∧ (copyMmsPartFiles (fun i => decide (i < k)) parts eid).eventParts
      = (parts.take k).map (mkCopiedPart eid) := by
  unfold copyMmsPartFiles
  have hres := copyGo_fail eid parts k 0 [] "" (fun i => decide (i < k)) hk
    (fun j hj => by simpa using hj)
    (by simp)
  exact ⟨hres.1, by rw [hres.2]; simp⟩

end Mms

namespace Mms

theorem sendMessageNotify_frame (s : MmsState) (e : Event) :
    (sendMessageNotify s e).2.store = s.store
    ∧ (sendMessageNotify s e).2.removedFiles = s.removedFiles := by
  unfold sendMessageNotify
  split <;> exact ⟨rfl, rfl⟩

theorem messageReceivedFinish_ok (s : MmsState) (failModifyOk : Bool) (sender : String)
    (parts : List MmsPart) (event : Event) (e0 : Event)
    (hin : getEventById s.store event.id = some e0) (idx : Int)
    (hidx : event.id = idx) :
    getEventById (messageReceivedFinish s (fun _ => true) true failModifyOk sender parts
        event).store idx
      = some { event with
          messageParts := parts.map (mkCopiedPart idx),
          freeText := specFreeText parts } := by
  subst hidx
  unfold messageReceivedFinish
  rw [copyMmsPartFiles_all_ok]
  exact getEventById_modify_self hin

theorem messageReceivedFinish_fail (s : MmsState) (sender : String)
    (parts : List MmsPart) (event : Event) (e0 : Event) (k : Nat)
    (hk : k < parts.length)
    (hin : getEventById s.store event.id = some e0) (idx : Int)
    (hidx : event.id = idx) :
    (messageReceivedFinish s (fun i => decide (i < k)) true true sender parts
        event).removedFiles
      = s.removedFiles
        ++ (parts.take k).map (fun p => messagePartPath idx p.contentId)
    ∧ getEventById (messageReceivedFinish s (fun i => decide (i < k)) true true sender
        parts event).store idx
      = some { e0 with status := .TemporarilyFailedStatus } := by
  subst hidx
  have hid : e0.id = event.id := getEventById_id hin
  have hcf := copyMmsPartFiles_fail parts event.id k hk
  have h2 : getEventById s.store e0.id = some e0 := by
    rw [hid]
    exact hin
  have h3 := @getEventById_modify_self s.store
    { e0 with status := EventStatus.TemporarilyFailedStatus } e0 h2
  simp only [messageReceivedFinish, hcf.1, Bool.false_eq_true, if_false,
    messageReceivedCleanup, hcf.2, hin]
  constructor
  · rw [List.map_map]
    have hfun : ((fun p : MessagePart => p.path) ∘ mkCopiedPart event.id)
        = fun p : MmsPart => messagePartPath event.id p.contentId := by
      funext p
      rfl
    rw [hfun]
  · show getEventById (modifyEventStore s.store _) event.id = _
    rw [← hid]
    exact h3

end Mms

namespace Mms

theorem messageReceived_found (s : MmsState) (groupOf : String → Option Int)
    (copyOk : Nat → Bool) (addOk moveOk modifyOk failModifyOk : Bool) (now : Nat)
    (recId : Int) (mmsId sender : String) (toL cc : List String) (subj : String)
    (date : Nat) (rr : Bool) (parts : List MmsPart) (e : Event)
    (he : getEventById s.store recId = some e)
    (hrm : e.remoteUid = sender)
    (hge : 0 ≤ recId) :
    messageReceived s groupOf copyOk addOk moveOk modifyOk failModifyOk now recId mmsId
      sender toL cc subj date rr parts
    = messageReceivedFinish
        { s with activeEvents := removeOne s.activeEvents recId }
        copyOk modifyOk failModifyOk sender parts
        { e with
          subject := subj, startTime := date, mmsId := mmsId, toList := toL,
          ccList := cc, reportRead := rr, status := .ReceivedStatus,
          extraImsi := none, extraExpiry := none, extraPushData := none } := by
  have hid : e.id = recId := getEventById_id he
  have hneg : ¬ (recId < 0) := not_lt.mpr hge
  unfold messageReceived
  rw [he]
  simp [hrm, hid, hneg]

theorem sendMessageTail_ok (s : MmsState) (parts : List MmsPart) (event : Event)
    (e0 : Event)
    (hin : getEventById s.store event.id = some e0) (idx : Int)
    (hidx : event.id = idx) :
    getEventById (sendMessageTail s false (fun _ => true) true true true parts
        event).2.store idx
      = some { event with
          messageParts := parts.map (mkCopiedPart idx),
          freeText := specFreeText parts } := by
  subst hidx
  simp only [sendMessageTail, copyMmsPartFiles_all_ok, Bool.not_true, Bool.not_false,
    Bool.false_eq_true, if_false, if_true]
  rw [(sendMessageNotify_frame _ _).1]
  exact getEventById_modify_self hin

theorem sendMessageTail_fail (s : MmsState) (parts : List MmsPart) (event : Event)
    (e0 : Event) (k : Nat) (hk : k < parts.length)
    (hin : getEventById s.store event.id = some e0)
    (hge : 0 ≤ event.id) (idx : Int) (hidx : event.id = idx) :
    (sendMessageTail s false (fun i => decide (i < k)) true true true parts
        event).2.removedFiles
      = s.removedFiles
        ++ (parts.take k).map (fun p => messagePartPath idx p.contentId)
    ∧ getEventById (sendMessageTail s false (fun i => decide (i < k)) true true true
        parts event).2.store idx
      = some { e0 with status := .PermanentlyFailedStatus } := by
  subst hidx
  have hid : e0.id = event.id := getEventById_id hin
  have hcf := copyMmsPartFiles_fail parts event.id k hk
  have h2 : getEventById s.store e0.id = some e0 := by
    rw [hid]
    exact hin
  have h3 := @getEventById_modify_self s.store
    { e0 with status := EventStatus.PermanentlyFailedStatus } e0 h2
  have hgeb : (event.id ≥ 0) = True := by simp [hge]
  simp only [sendMessageTail, hcf.1, Bool.false_eq_true, if_false, Bool.not_false,
    if_true, hcf.2, hgeb, hin]
  rw [(sendMessageNotify_frame _ _).1, (sendMessageNotify_frame _ _).2]
  constructor
  · rw [List.map_map]
    have hfun : ((fun p : MessagePart => p.path) ∘ mkCopiedPart event.id)
        = fun p : MmsPart => messagePartPath event.id p.contentId := by
      funext p
      rfl
    rw [hfun]
  · show getEventById (modifyEventStore s.store _) event.id = _
    rw [← hid]
    exact h3

end Mms

namespace Mms

theorem sendMessage_single (s : MmsState) (prohibited : Bool)
    (normalize : String → String) (groupOf : String → Option Int) (copyOk : Nat → Bool)
    (modifyOk failModifyOk prohibModifyOk : Bool) (now : Nat) (rcpt : String)
    (subject : String) (parts : List MmsPart) (g : Int)
    (hg : groupOf (normalize rcpt) = some g) :
    sendMessage s prohibited normalize groupOf copyOk true modifyOk failModifyOk
      prohibModifyOk now [rcpt] [] [] subject parts
    = some (sendMessageTail
        { s with store := s.store ++ [sendEventFor s normalize rcpt subject now g],
                 nextId := s.nextId + 1 }
        prohibited copyOk modifyOk failModifyOk prohibModifyOk parts
        (sendEventFor s normalize rcpt subject now g)) := by
  simp only [sendMessage, sendMessageBody, normalizeNumberList, List.map_cons,
    List.map_nil, hg, List.length_cons, List.length_nil, Bool.not_true,
    Bool.false_eq_true, if_false]
  norm_num
  rfl

end Mms

namespace Mms

end Mms

namespace Mms

theorem getEventById_singleton_self {x : Event} :
    getEventById [x] x.id = some x := by
  simp [getEventById, List.find?]

/-- C4: copy-protocol round trip.  On the receive path (existing record,
same sender, persists succeeding): if all copies succeed the record ends
with exactly one message part per input part and free text equal to the
trimmed, newline-joined concatenation of all `text/plain*` parts in input
order skipping empty ones; if the copy of part index k (0-based) fails,
exactly the k already-copied files are removed and the record's status
becomes TemporarilyFailed.  On the send path (single recipient, data not
prohibited): same success shape, and on a part-copy failure the k copied
files are removed and the status becomes PermanentlyFailed. -/
theorem copy_roundtrip (s : MmsState) (groupOf groupOf2 : String → Option Int)
    (addOk moveOk failModifyOk : Bool) (now : Nat) (recId : Int)
    (mmsId sender : String) (toL cc : List String) (subj : String) (date : Nat)
    (rr : Bool) (parts : List MmsPart) (e : Event) (normalize : String → String)
    (rcpt subj2 : String) (g : Int)
    (he : getEventById s.store recId = some e)
    (hrm : e.remoteUid = sender)
    (hge : 0 ≤ recId)
    (hg : groupOf2 (normalize rcpt) = some g)
    (hfresh : getEventById s.store s.nextId = none)
    (hnext : 0 ≤ s.nextId) :
    ((getEventById (messageReceived s groupOf (fun _ => true) addOk moveOk true
        failModifyOk now recId mmsId sender toL cc subj date rr parts).store
        recId).map (fun r => (r.messageParts.length, r.freeText))
      = some (parts.length, specFreeText parts))
    ∧ (∀ k : Nat, k < parts.length →
        (messageReceived s groupOf (fun i => decide (i < k)) addOk moveOk true true now
          recId mmsId sender toL cc subj date rr parts).removedFiles
          = s.removedFiles
            ++ (parts.take k).map (fun p => messagePartPath recId p.contentId)
        ∧ statusAt (messageReceived s groupOf (fun i => decide (i < k)) addOk moveOk
            true true now recId mmsId sender toL cc subj date rr parts) recId
          = some .TemporarilyFailedStatus)
    ∧ ((sendMessage s false normalize groupOf2 (fun _ => true) true true true true now
          [rcpt] [] [] subj2 parts).map (fun out =>
          (getEventById out.2.store s.nextId).map
            (fun r => (r.messageParts.length, r.freeText)))
        = some (some (parts.length, specFreeText parts)))
    ∧ (∀ k : Nat, k < parts.length →
        (sendMessage s false normalize groupOf2 (fun i => decide (i < k)) true true
          true true now [rcpt] [] [] subj2 parts).map (fun out =>
            (out.2.removedFiles, statusAt out.2 s.nextId))
        = some (s.removedFiles
            ++ (parts.take k).map (fun p => messagePartPath s.nextId p.contentId),
            some .PermanentlyFailedStatus)) := by
  have hid : e.id = recId := getEventById_id he
  refine ⟨?_, ?_, ?_, ?_⟩
  · rw [messageReceived_found s groupOf (fun _ => true) addOk moveOk true failModifyOk
      now recId mmsId sender toL cc subj date rr parts e he hrm hge]
    have hin : getEventById
        ({ s with activeEvents := removeOne s.activeEvents recId } : MmsState).store
        ({ e with
          subject := subj, startTime := date, mmsId := mmsId, toList := toL,
          ccList := cc, reportRead := rr, status := .ReceivedStatus,
          extraImsi := none, extraExpiry := none, extraPushData := none } : Event).id
        = some e := by
      show getEventById s.store e.id = some e
      rw [hid]
      exact he
    have hres := messageReceivedFinish_ok _ failModifyOk sender parts _ e hin recId hid
    rw [hres]
    simp
  · intro k hk
    rw [messageReceived_found s groupOf (fun i => decide (i < k)) addOk moveOk true
      true now recId mmsId sender toL cc subj date rr parts e he hrm hge]
    have hin : getEventById
        ({ s with activeEvents := removeOne s.activeEvents recId } : MmsState).store
        ({ e with
          subject := subj, startTime := date, mmsId := mmsId, toList := toL,
          ccList := cc, reportRead := rr, status := .ReceivedStatus,
          extraImsi := none, extraExpiry := none, extraPushData := none } : Event).id
        = some e := by
      show getEventById s.store e.id = some e
      rw [hid]
      exact he
    have hres := messageReceivedFinish_fail _ sender parts _ e k hk hin recId hid
    refine ⟨hres.1, ?_⟩
    unfold statusAt
    rw [hres.2]
    rfl
  · rw [sendMessage_single s false normalize groupOf2 (fun _ => true) true true true
      now rcpt subj2 parts g hg]
    have hin : getEventById
        ({ s with store := s.store ++ [sendEventFor s normalize rcpt subj2 now g],
                  nextId := s.nextId + 1 } : MmsState).store
        (sendEventFor s normalize rcpt subj2 now g).id
        = some (sendEventFor s normalize rcpt subj2 now g) := by
      show getEventById (s.store ++ [sendEventFor s normalize rcpt subj2 now g])
        (sendEventFor s normalize rcpt subj2 now g).id = _
      rw [getEventById_append]
      rw [show (sendEventFor s normalize rcpt subj2 now g).id = s.nextId from rfl,
        hfresh]
      rw [show getEventById [sendEventFor s normalize rcpt subj2 now g] s.nextId
        = some (sendEventFor s normalize rcpt subj2 now g) from
        getEventById_singleton_self]
      rfl
    have hres := sendMessageTail_ok _ parts _ _ hin s.nextId rfl
    rw [Option.map_some']
    rw [hres]
    simp
  · intro k hk
    rw [sendMessage_single s false normalize groupOf2 (fun i => decide (i < k)) true
      true true now rcpt subj2 parts g hg]
    have hin : getEventById
        ({ s with store := s.store ++ [sendEventFor s normalize rcpt subj2 now g],
                  nextId := s.nextId + 1 } : MmsState).store
        (sendEventFor s normalize rcpt subj2 now g).id
        = some (sendEventFor s normalize rcpt subj2 now g) := by
      show getEventById (s.store ++ [sendEventFor s normalize rcpt subj2 now g])
        (sendEventFor s normalize rcpt subj2 now g).id = _
      rw [getEventById_append]
      rw [show (sendEventFor s normalize rcpt subj2 now g).id = s.nextId from rfl,
        hfresh]
      rw [show getEventById [sendEventFor s normalize rcpt subj2 now g] s.nextId
        = some (sendEventFor s normalize rcpt subj2 now g) from
        getEventById_singleton_self]
      rfl
    have hres := sendMessageTail_fail _ parts _ _ k hk hin hnext s.nextId rfl
    rw [Option.map_some']
    unfold statusAt
    rw [hres.1, hres.2]
    rfl

end Mms

namespace Mms

theorem copy_roundtrip_witness :
    (getEventById c4state.store 1 = some c4event)
    ∧ (c4event.remoteUid = "sender")
    ∧ ((0 : Int) ≤ 1)
    ∧ ((fun _ : String => (some 7 : Option Int)) ((fun x : String => x) "555") = some 7)
    ∧ (getEventById c4state.store c4state.nextId = none)
    ∧ ((0 : Int) ≤ c4state.nextId)
    ∧ ((getEventById (messageReceived c4state (fun _ => some 7) (fun _ => true) true
          true true true 0 1 "mid" "sender" [] [] "subj" 0 false c4parts).store 1).map
          (fun r => (r.messageParts.length, r.freeText))
        = some (c4parts.length, specFreeText c4parts)) :=
  ⟨by decide, rfl, by decide, rfl, by decide, by decide,
   (copy_roundtrip c4state (fun _ => some 7) (fun _ => some 7) true true true 0 1
      "mid" "sender" [] [] "subj" 0 false c4parts c4event (fun x : String => x) "555"
      "subj2" 7 (by decide) rfl (by decide) rfl (by decide) (by decide)).1⟩

end Mms

namespace Mms

theorem activeInvL_erase {store : List Event} {active : List Int} (x : Int)
    (h : ActiveInvL store active) : ActiveInvL store (removeOne active x) := by
  intro id hid
  exact h id (List.mem_of_mem_erase hid)

theorem eventInProgress_modify_ne {store : List Event} {e1 : Event} {id : Int}
    (hne : id ≠ e1.id) :
    eventInProgress (modifyEventStore store e1) id = eventInProgress store id := by
  unfold eventInProgress
  rw [getEventById_modify_ne hne]

theorem eventInProgress_some {store : List Event} {id : Int}
    (h : eventInProgress store id = true) :
    ∃ e, getEventById store id = some e ∧ inProgress e.status = true := by
  unfold eventInProgress at h
  cases h1 : getEventById store id with
  | none => rw [h1] at h; simp at h
  | some e => rw [h1] at h; exact ⟨e, rfl, h⟩

theorem activeInvL_modify {store : List Event} {active : List Int} {e1 : Event}
    (hinv : ActiveInvL store active)
    (hsafe : e1.id ∈ active → inProgress e1.status = true) :
    ActiveInvL (modifyEventStore store e1) active := by
  intro id hid
  by_cases hne : id = e1.id
  · obtain ⟨e, he, _⟩ := eventInProgress_some (hinv id hid)
    have he2 : getEventById store e1.id = some e := by
      rw [← hne]
      exact he
    unfold eventInProgress
    rw [hne, getEventById_modify_self he2]
    rw [hne] at hid
    exact hsafe hid
  · rw [eventInProgress_modify_ne hne]
    exact hinv id hid

theorem storeIdsOkL_modify {store : List Event} {nextId : Int} {e1 : Event}
    (h : storeIdsOkL store nextId) : storeIdsOkL (modifyEventStore store e1) nextId := by
  refine ⟨h.1, ?_⟩
  intro y hy
  rcases mem_modifyEventStore hy with hmem | ⟨rfl, x, hx, hxe⟩
  · exact h.2 y hmem
  · have hb := h.2 x hx
    rw [hxe] at hb
    exact hb

theorem eventInProgress_move (store : List Event) (mid g id : Int) :
    eventInProgress (moveEventStore store mid g) id = eventInProgress store id := by
  unfold eventInProgress
  have h := @getEventById_move_status store mid g id
  cases h1 : getEventById store id with
  | none =>
    cases h2 : getEventById (moveEventStore store mid g) id with
    | none => rfl
    | some e2 => rw [h1, h2] at h; simp at h
  | some e1 =>
    cases h2 : getEventById (moveEventStore store mid g) id with
    | none => rw [h1, h2] at h; simp at h
    | some e2 =>
      rw [h1, h2] at h
      simp only [Option.map_some', Option.some_inj] at h
      show inProgress e2.status = inProgress e1.status
      rw [h]

theorem activeInvL_move {store : List Event} {active : List Int} (mid g : Int)
    (hinv : ActiveInvL store active) : ActiveInvL (moveEventStore store mid g) active := by
  intro id hid
  rw [eventInProgress_move]
  exact hinv id hid

theorem storeIdsOkL_move {store : List Event} {nextId mid g : Int}
    (h : storeIdsOkL store nextId) : storeIdsOkL (moveEventStore store mid g) nextId := by
  refine ⟨h.1, ?_⟩
  intro y hy
  obtain ⟨x, hx, hyx, _⟩ := mem_moveEventStore hy
  rw [hyx]
  exact h.2 x hx

theorem eventInProgress_append {store l2 : List Event} {id : Int}
    (h : eventInProgress store id = true) :
    eventInProgress (store ++ l2) id = true := by
  unfold eventInProgress at h ⊢
  rw [getEventById_append]
  cases h1 : getEventById store id with
  | none => rw [h1] at h; simp at h
  | some e =>
    rw [h1] at h
    simpa using h

theorem activeInvL_append {store l2 : List Event} {active : List Int}
    (hinv : ActiveInvL store active) : ActiveInvL (store ++ l2) active := by
  intro id hid
  exact eventInProgress_append (hinv id hid)

theorem storeIdsOkL_append {store : List Event} {nextId : Int} {e : Event}
    (h : storeIdsOkL store nextId) (he1 : 1 ≤ e.id) (he2 : e.id < nextId + 1) :
    storeIdsOkL (store ++ [e]) (nextId + 1) := by
  refine ⟨by omega, ?_⟩
  intro y hy
  rcases List.mem_append.mp hy with hm | hm
  · have hb := h.2 y hm
    omega
  · rw [List.mem_singleton.mp hm]
    exact ⟨he1, he2⟩

theorem active_id_lt {store : List Event} {nextId : Int} {active : List Int}
    (hids : storeIdsOkL store nextId) (hinv : ActiveInvL store active) :
    ∀ id ∈ active, id < nextId := by
  intro id hid
  obtain ⟨e, he, _⟩ := eventInProgress_some (hinv id hid)
  have hb := (hids.2 e (getEventById_mem he)).2
  rw [getEventById_id he] at hb
  exact hb

theorem active_id_pos {store : List Event} {nextId : Int} {active : List Int}
    (hids : storeIdsOkL store nextId) (hinv : ActiveInvL store active) :
    ∀ id ∈ active, 1 ≤ id := by
  intro id hid
  obtain ⟨e, he, _⟩ := eventInProgress_some (hinv id hid)
  have hb := (hids.2 e (getEventById_mem he)).1
  rw [getEventById_id he] at hb
  exact hb

theorem getEventById_fresh_none {store : List Event} {nextId : Int}
    (hids : storeIdsOkL store nextId) : getEventById store nextId = none := by
  cases h : getEventById store nextId with
  | none => rfl
  | some e =>
    have hb := (hids.2 e (getEventById_mem h)).2
    rw [getEventById_id h] at hb
    exact absurd hb (lt_irrefl _)

end Mms

namespace Mms

theorem nodup_append_singleton {l : List Int} {x : Int} (hnd : l.Nodup)
    (hx : x ∉ l) : (l ++ [x]).Nodup := by
  rw [List.nodup_append]
  refine ⟨hnd, List.nodup_singleton x, ?_⟩
  intro a ha hax
  rw [List.mem_singleton.mp hax] at ha
  exact hx ha

theorem storeIdsOkL_modify_ite {store : List Event} {nextId : Int} {e1 : Event}
    (mOk : Bool) (h : storeIdsOkL store nextId) :
    storeIdsOkL (if mOk = true then modifyEventStore store e1 else store) nextId := by
  cases mOk
  · simpa using h
  · simpa using storeIdsOkL_modify h

theorem activeInvL_modify_ite {store : List Event} {active : List Int} {e1 : Event}
    (mOk : Bool) (hinv : ActiveInvL store active)
    (hsafe : e1.id ∈ active → inProgress e1.status = true) :
    ActiveInvL (if mOk = true then modifyEventStore store e1 else store) active := by
  cases mOk
  · simpa using hinv
  · simpa using activeInvL_modify hinv hsafe

theorem onDataProhibitedChanged_preserves (s : MmsState) (prohibited : Bool)
    (h : GoodState s) : GoodState (onDataProhibitedChanged s prohibited) := by
  unfold onDataProhibitedChanged
  split
  · exact ⟨h.1, List.nodup_nil, by intro id hid; cases hid⟩
  · exact h

theorem sendMessageNotify_preserves (s : MmsState) (e : Event) (h : GoodState s) :
    GoodState (sendMessageNotify s e).2 := by
  unfold sendMessageNotify
  split <;> exact h

theorem messageSent_preserves (s : MmsState) (mOk : Bool) (recId : Int)
    (mmsId : String) (h : GoodState s) : GoodState (messageSent s mOk recId mmsId) := by
  obtain ⟨hids, hnd, hinv⟩ := h
  unfold messageSent
  cases hf : getEventById s.store recId with
  | none => exact ⟨hids, hnd.erase recId, activeInvL_erase recId hinv⟩
  | some e =>
    cases mOk with
    | false => exact ⟨hids, hnd.erase recId, activeInvL_erase recId hinv⟩
    | true =>
      refine ⟨storeIdsOkL_modify hids, hnd.erase recId, ?_⟩
      apply activeInvL_modify (activeInvL_erase recId hinv)
      intro hmem
      have hh0 := getEventById_id hf
      have hh : ({ e with status := EventStatus.SentStatus, mmsId := mmsId } :
          Event).id = recId := hh0
      rw [hh] at hmem
      exact absurd hmem (fun hc => ((List.Nodup.mem_erase_iff hnd).mp hc).1 rfl)

theorem messageReceiveApply_preserves (s : MmsState) (mOk : Bool) (event : Event)
    (ns : EventStatus) (h : GoodState s) :
    GoodState (messageReceiveApply s mOk event ns) := by
  obtain ⟨hids, hnd, hinv⟩ := h
  simp only [messageReceiveApply]
  split
  case isFalse => exact ⟨hids, hnd, hinv⟩
  case isTrue hchanged =>
  split
  case isTrue hterm =>
    refine ⟨storeIdsOkL_modify_ite mOk hids, hnd.erase _, ?_⟩
    apply activeInvL_modify_ite mOk (activeInvL_erase _ hinv)
    intro hmem
    exact absurd hmem (fun hc => ((List.Nodup.mem_erase_iff hnd).mp hc).1 rfl)
  case isFalse hterm =>
    have hns : inProgress ns = true := by
      simp only [Bool.and_eq_true, bne_iff_ne, ne_eq, not_and, not_not] at hterm
      unfold inProgress
      by_cases hW : ns = EventStatus.WaitingStatus
      · simp [hW]
      · have hD := hterm (by simpa using hW)
        simp [hD]
    refine ⟨storeIdsOkL_modify_ite mOk hids, hnd, ?_⟩
    apply activeInvL_modify_ite mOk hinv
    intro _
    exact hns

theorem messageReceiveStateChanged_preserves (s : MmsState) (mOk : Bool)
    (recId stateCode : Int) (h : GoodState s) :
    GoodState (messageReceiveStateChanged s mOk recId stateCode) := by
  unfold messageReceiveStateChanged
  split
  · exact ⟨h.1, h.2.1.erase recId, activeInvL_erase recId h.2.2⟩
  · split
    · exact h
    · exact messageReceiveApply_preserves _ _ _ _ h

end Mms

namespace Mms

theorem sendMessageFinished_preserves (s : MmsState) (idOk : Bool) (eventId : Int)
    (replyValue : String) (mOk : Bool) (h : GoodState s) :
    GoodState (sendMessageFinished s idOk eventId false replyValue mOk) := by
  obtain ⟨hids, hnd, hinv⟩ := h
  simp only [sendMessageFinished, Bool.false_eq_true, if_false]
  refine ⟨storeIdsOkL_modify_ite mOk hids, hnd, ?_⟩
  apply activeInvL_modify_ite mOk hinv
  intro hmem
  cases idOk with
  | false =>
    have hpos := active_id_pos hids hinv _ hmem
    simp [defaultEvent] at hpos
  | true =>
    cases hf : getEventById s.store eventId with
    | none =>
      rw [hf] at hmem
      have hpos := active_id_pos hids hinv _ hmem
      simp [defaultEvent] at hpos
    | some e =>
      rw [hf] at hmem
      have hid2 := getEventById_id hf
      have h3 := hinv eventId (by rw [← hid2]; exact hmem)
      unfold eventInProgress at h3
      rw [hf] at h3
      exact h3

end Mms

namespace Mms

theorem sendMessageFromEventE_preserves (s : MmsState) (event : Event) (e0 : Event)
    (hin : getEventById s.store event.id = some e0)
    (hst : inProgress e0.status = true)
    (hnotin : event.id ∉ s.activeEvents)
    (h : GoodState s) : GoodState (sendMessageFromEventE s event) := by
  obtain ⟨hids, hnd, hinv⟩ := h
  simp only [sendMessageFromEventE]
  refine ⟨hids, nodup_append_singleton hnd hnotin, ?_⟩
  intro id hid
  rcases List.mem_append.mp hid with hm | hm
  · exact hinv id hm
  · rw [List.mem_singleton.mp hm]
    unfold eventInProgress
    rw [hin]
    exact hst

theorem sendMessageFromEventId_preserves (s : MmsState) (eventId : Int)
    (hnotin : eventId ∉ s.activeEvents) (h : GoodState s) :
    GoodState (sendMessageFromEventId s true eventId) := by
  obtain ⟨hids, hnd, hinv⟩ := h
  unfold sendMessageFromEventId
  split
  · exact ⟨hids, hnd, hinv⟩
  · next event heq =>
    split
    · exact ⟨hids, hnd, hinv⟩
    · split
      · exact ⟨hids, hnd, hinv⟩
      · split
        · exact ⟨hids, hnd, hinv⟩
        · have hid2 := getEventById_id heq
          split
          case isTrue hne =>
            have hin2 : getEventById s.store
                ({ event with status := EventStatus.SendingStatus } : Event).id
                = some event := by
              show getEventById s.store event.id = some event
              rw [hid2]
              exact heq
            have hself := getEventById_modify_self hin2
            apply sendMessageFromEventE_preserves _ _
              { event with status := EventStatus.SendingStatus }
            · show getEventById (if true = true then modifyEventStore s.store _
                else s.store) _ = _
              rw [if_pos rfl]
              exact hself
            · rfl
            · show ({ event with status := EventStatus.SendingStatus } : Event).id
                ∉ s.activeEvents
              have hh : ({ event with status := EventStatus.SendingStatus } :
                  Event).id = eventId := hid2
              rw [hh]
              exact hnotin
            · refine ⟨storeIdsOkL_modify_ite true hids, hnd, ?_⟩
              apply activeInvL_modify_ite true hinv
              intro hmem
              have hh2 : ({ event with status := EventStatus.SendingStatus } :
                  Event).id = eventId := hid2
              rw [hh2] at hmem
              exact absurd hmem hnotin
          case isFalse hne =>
            apply sendMessageFromEventE_preserves _ _ event
            · rw [hid2]
              exact heq
            · simp only [bne_iff_ne, ne_eq, not_not] at hne
              unfold inProgress
              simp [hne]
            · rw [hid2]
              exact hnotin
            · exact ⟨hids, hnd, hinv⟩

end Mms

namespace Mms

theorem messageNotification_preserves (s : MmsState) (prohibited : Bool)
    (groupOf : String → Option Int) (addOk : Bool) (now : Nat)
    (imsi sender subject : String) (expiry : Nat) (pushData : String)
    (h : GoodState s) :
    GoodState (messageNotification s prohibited groupOf addOk now imsi sender subject
      expiry pushData).2 := by
  obtain ⟨hids, hnd, hinv⟩ := h
  simp only [messageNotification]
  split
  · exact ⟨hids, hnd, hinv⟩
  · split
    · exact ⟨hids, hnd, hinv⟩
    · split
      case isTrue hman =>
        refine ⟨?_, ?_, ?_⟩
        · exact storeIdsOkL_append hids hids.1 (lt_add_one s.nextId)
        · exact nodup_append_singleton hnd
            (fun hc => absurd (active_id_lt hids hinv _ hc) (lt_irrefl _))
        · intro id hid
          rcases List.mem_append.mp hid with hm | hm
          · exact eventInProgress_append (hinv id hm)
          · rw [List.mem_singleton.mp hm]
            unfold eventInProgress
            rw [getEventById_append, getEventById_fresh_none hids]
            have hman2 : manualDownloadFor s.policy prohibited = false := by
              simpa using hman
            simp [getEventById_cons, hman2, inProgress]
      case isFalse hman =>
        refine ⟨?_, hnd, ?_⟩
        · exact storeIdsOkL_append hids hids.1 (lt_add_one s.nextId)
        · intro id hid
          exact eventInProgress_append (hinv id hid)

end Mms

namespace Mms

theorem messageReceivedCleanup_preserves (s : MmsState) (fmOk : Bool) (sender : String)
    (cr : CopyResult) (eventId : Int)
    (hids : storeIdsOk s) (hnd : s.activeEvents.Nodup) (hinv : ActiveInv s)
    (hnot : ∀ id ∈ s.activeEvents, id ≠ eventId) :
    GoodState (messageReceivedCleanup s fmOk sender cr eventId) := by
  simp only [messageReceivedCleanup]
  split
  · exact ⟨hids, hnd, hinv⟩
  · next e2 heq =>
    refine ⟨storeIdsOkL_modify_ite fmOk hids, hnd, ?_⟩
    apply activeInvL_modify_ite fmOk hinv
    intro hmem
    have hh0 := getEventById_id heq
    have hh : ({ e2 with status := EventStatus.TemporarilyFailedStatus } :
        Event).id = eventId := hh0
    rw [hh] at hmem
    exact absurd rfl (hnot eventId hmem)

theorem messageReceivedFinish_preserves (s : MmsState) (copyOk : Nat → Bool)
    (mOk fmOk : Bool) (sender : String) (parts : List MmsPart) (event : Event)
    (hids : storeIdsOk s) (hnd : s.activeEvents.Nodup) (hinv : ActiveInv s)
    (hnot : ∀ id ∈ s.activeEvents, id ≠ event.id) :
    GoodState (messageReceivedFinish s copyOk mOk fmOk sender parts event) := by
  simp only [messageReceivedFinish]
  split
  case isTrue hok =>
    split
    case isTrue hmok =>
      refine ⟨storeIdsOkL_modify hids, hnd, ?_⟩
      apply activeInvL_modify hinv
      intro hmem
      exact absurd rfl (hnot event.id hmem)
    case isFalse hmok =>
      exact messageReceivedCleanup_preserves _ _ _ _ _ hids hnd hinv hnot
  case isFalse hok =>
    exact messageReceivedCleanup_preserves _ _ _ _ _ hids hnd hinv hnot

end Mms

namespace Mms

theorem messageReceived_preserves (s : MmsState) (groupOf : String → Option Int)
    (copyOk : Nat → Bool) (addOk moveOk mOk fmOk : Bool) (now : Nat) (recId : Int)
    (mmsId sender : String) (toL cc : List String) (subj : String) (date : Nat)
    (rr : Bool) (parts : List MmsPart) (h : GoodState s) :
    GoodState (messageReceived s groupOf copyOk addOk moveOk mOk fmOk now recId mmsId
      sender toL cc subj date rr parts) := by
  obtain ⟨hids, hnd, hinv⟩ := h
  simp only [messageReceived]
  split
  case h_1 =>
    exact ⟨hids, hnd.erase recId, activeInvL_erase recId hinv⟩
  case h_2 e heq =>
    split at heq
    next e0 hf =>
      injection heq with h1
      subst h1
      have hE : e0.id = recId := getEventById_id hf
      have hge : (1:Int) ≤ e0.id := (hids.2 e0 (getEventById_mem hf)).1
      have hnot0 : ∀ id ∈ removeOne s.activeEvents recId, id ≠ e0.id := by
        intro id hid
        have h2 : id ≠ recId := ((List.Nodup.mem_erase_iff hnd).mp hid).1
        rw [hE]
        exact h2
      split
      next hRe =>
        cases hgo : groupOf sender with
        | none =>
          split
          next hGr =>
            have hGr2 : (e0.groupId != e0.groupId) = true := hGr
            simp at hGr2
          next hGr =>
            split
            next hlt =>
              have hlt2 : e0.id < 0 := hlt
              exact absurd hlt2 (by omega)
            next hlt =>
              apply messageReceivedFinish_preserves
              · exact hids
              · exact hnd.erase recId
              · exact activeInvL_erase recId hinv
              · exact hnot0
        | some g =>
          split
          next hGr =>
            split
            next hMv =>
              split
              next hlt =>
                have hlt2 : e0.id < 0 := hlt
                exact absurd hlt2 (by omega)
              next hlt =>
                apply messageReceivedFinish_preserves
                · exact storeIdsOkL_move hids
                · exact hnd.erase recId
                · exact activeInvL_move _ _ (activeInvL_erase recId hinv)
                · exact hnot0
            next hMv =>
              split
              next hlt =>
                have hlt2 : e0.id < 0 := hlt
                exact absurd hlt2 (by omega)
              next hlt =>
                apply messageReceivedFinish_preserves
                · exact hids
                · exact hnd.erase recId
                · exact activeInvL_erase recId hinv
                · exact hnot0
          next hGr =>
            split
            next hlt =>
              have hlt2 : e0.id < 0 := hlt
              exact absurd hlt2 (by omega)
            next hlt =>
              apply messageReceivedFinish_preserves
              · exact hids
              · exact hnd.erase recId
              · exact activeInvL_erase recId hinv
              · exact hnot0
      next hRe =>
        split
        next hlt =>
          have hlt2 : e0.id < 0 := hlt
          exact absurd hlt2 (by omega)
        next hlt =>
          apply messageReceivedFinish_preserves
          · exact hids
          · exact hnd.erase recId
          · exact activeInvL_erase recId hinv
          · exact hnot0
    next hf =>
      split at heq
      next hgg =>
        exact absurd heq (by simp)
      next g hgg =>
        injection heq with h1
        subst h1
        split
        next hRe =>
          have hRe2 : (sender != sender) = true := hRe
          simp at hRe2
        next hRe =>
          split
          next hlt =>
            split
            next haddf =>
              exact ⟨hids, hnd.erase recId, activeInvL_erase recId hinv⟩
            next haddt =>
              apply messageReceivedFinish_preserves
              · apply storeIdsOkL_append hids
                · exact hids.1
                · exact lt_add_one s.nextId
              · exact hnd.erase recId
              · exact activeInvL_append (activeInvL_erase recId hinv)
              · intro id hid
                have h2 : id < s.nextId :=
                  active_id_lt hids hinv id (List.mem_of_mem_erase hid)
                show id ≠ s.nextId
                omega
          next hlt =>
            have hlt2 : ¬(defaultEvent.id < 0) := hlt
            simp [defaultEvent] at hlt2

end Mms

namespace Mms

theorem sendMessageTail_preserves (s : MmsState) (prohibited : Bool)
    (copyOk : Nat → Bool) (mOk fmOk pmOk : Bool) (parts : List MmsPart)
    (event : Event) (e00 : Event)
    (hin : getEventById s.store event.id = some e00)
    (hst : inProgress event.status = true)
    (hnot : ∀ id ∈ s.activeEvents, id ≠ event.id)
    (hids : storeIdsOk s) (hnd : s.activeEvents.Nodup) (hinv : ActiveInv s) :
    GoodState (sendMessageTail s prohibited copyOk mOk fmOk pmOk parts event).2 := by
  have hnotin : event.id ∉ s.activeEvents := fun hc => hnot _ hc rfl
  cases mOk with
  | true =>
    simp only [sendMessageTail]
    split
    next hok =>
      simp only [eq_self_iff_true, if_true, Bool.not_true, Bool.not_false,
        Bool.false_eq_true, if_false]
      split
      next hpro =>
        apply sendMessageNotify_preserves
        refine ⟨storeIdsOkL_modify_ite pmOk (storeIdsOkL_modify hids), hnd, ?_⟩
        apply activeInvL_modify_ite pmOk
        · apply activeInvL_modify hinv
          intro hmem
          exact absurd rfl (hnot _ hmem)
        · intro hmem
          exact absurd rfl (hnot _ hmem)
      next hpro =>
        apply sendMessageNotify_preserves
        apply sendMessageFromEventE_preserves
        · exact getEventById_modify_self hin
        · exact hst
        · exact hnotin
        · refine ⟨storeIdsOkL_modify hids, hnd, ?_⟩
          apply activeInvL_modify hinv
          intro hmem
          exact hst
    next hok =>
      simp only [eq_self_iff_true, if_true, Bool.not_true, Bool.not_false,
        Bool.false_eq_true, if_false]
      split
      next hge =>
        split
        next e2 heq2 =>
          apply sendMessageNotify_preserves
          refine ⟨storeIdsOkL_modify_ite fmOk hids, hnd, ?_⟩
          apply activeInvL_modify_ite fmOk hinv
          intro hmem
          have hmem2 : e2.id ∈ s.activeEvents := hmem
          have h4 : e2.id = event.id := getEventById_id heq2
          rw [h4] at hmem2
          exact absurd rfl (hnot _ hmem2)
        next heq2 =>
          apply sendMessageNotify_preserves
          exact ⟨hids, hnd, hinv⟩
      next hge =>
        apply sendMessageNotify_preserves
        exact ⟨hids, hnd, hinv⟩
  | false =>
    simp only [sendMessageTail]
    split
    next hok =>
      simp only [eq_self_iff_true, if_true, Bool.not_true, Bool.not_false,
        Bool.false_eq_true, if_false]
      split
      next hge =>
        split
        next e2 heq2 =>
          apply sendMessageNotify_preserves
          refine ⟨storeIdsOkL_modify_ite fmOk hids, hnd, ?_⟩
          apply activeInvL_modify_ite fmOk hinv
          intro hmem
          have hmem2 : e2.id ∈ s.activeEvents := hmem
          have h4 : e2.id = event.id := getEventById_id heq2
          rw [h4] at hmem2
          exact absurd rfl (hnot _ hmem2)
        next heq2 =>
          apply sendMessageNotify_preserves
          exact ⟨hids, hnd, hinv⟩
      next hge =>
        apply sendMessageNotify_preserves
        exact ⟨hids, hnd, hinv⟩
    next hok =>
      simp only [eq_self_iff_true, if_true, Bool.not_true, Bool.not_false,
        Bool.false_eq_true, if_false]
      split
      next hge =>
        split
        next e2 heq2 =>
          apply sendMessageNotify_preserves
          refine ⟨storeIdsOkL_modify_ite fmOk hids, hnd, ?_⟩
          apply activeInvL_modify_ite fmOk hinv
          intro hmem
          have hmem2 : e2.id ∈ s.activeEvents := hmem
          have h4 : e2.id = event.id := getEventById_id heq2
          rw [h4] at hmem2
          exact absurd rfl (hnot _ hmem2)
        next heq2 =>
          apply sendMessageNotify_preserves
          exact ⟨hids, hnd, hinv⟩
      next hge =>
        apply sendMessageNotify_preserves
        exact ⟨hids, hnd, hinv⟩

end Mms

namespace Mms

theorem getEventById_append_fresh {store : List Event} {nextId : Int} {e : Event}
    (hids : storeIdsOkL store nextId) (he : e.id = nextId) :
    getEventById (store ++ [e]) e.id = some e := by
  rw [getEventById_append, he, getEventById_fresh_none hids, Option.none_or, ← he]
  exact getEventById_singleton_self

theorem sendMessageBody_preserves (s : MmsState) (prohibited : Bool)
    (normalize : String → String) (groupOf : String → Option Int)
    (copyOk : Nat → Bool) (addOk mOk fmOk pmOk : Bool) (now : Nat) (t0 : String)
    (toL ccL bccL : List String) (subject : String) (parts : List MmsPart)
    (h : GoodState s) :
    GoodState (sendMessageBody s prohibited normalize groupOf copyOk addOk mOk
      fmOk pmOk now t0 toL ccL bccL subject parts).2 := by
  obtain ⟨hids, hnd, hinv⟩ := h
  simp only [sendMessageBody]
  split
  next hlen => exact ⟨hids, hnd, hinv⟩
  next hlen =>
    split
    next hg => exact ⟨hids, hnd, hinv⟩
    next g hg =>
      split
      next hadd => exact ⟨hids, hnd, hinv⟩
      next hadd =>
        apply sendMessageTail_preserves
        · exact getEventById_append_fresh hids rfl
        · exact rfl
        · intro id hid
          have h2 : id < s.nextId := active_id_lt hids hinv id hid
          show id ≠ s.nextId
          omega
        · exact storeIdsOkL_append hids hids.1 (lt_add_one s.nextId)
        · exact hnd
        · exact activeInvL_append hinv

theorem sendMessage_step_preserves (s : MmsState) (prohibited : Bool)
    (normalize : String → String) (groupOf : String → Option Int)
    (copyOk : Nat → Bool) (addOk mOk fmOk pmOk : Bool) (now : Nat)
    (toL ccL bccL : List String) (subject : String) (parts : List MmsPart)
    (h : GoodState s) :
    GoodState (match sendMessage s prohibited normalize groupOf copyOk addOk mOk
        fmOk pmOk now toL ccL bccL subject parts with
      | some (_, s1) => s1
      | none => s) := by
  cases toL with
  | nil => exact h
  | cons t0 rest =>
    simp only [sendMessage]
    exact sendMessageBody_preserves _ _ _ _ _ _ _ _ _ _ _ _ _ _ _ _ h

end Mms

namespace Mms

theorem step_preserves (s : MmsState) (st : Step) (h : GoodState s)
    (hok : stepOk s st) : GoodState (step s st) := by
  cases st with
  | notification prohibited groupOf addOk now imsi sender subject expiry pushData =>
    exact messageNotification_preserves _ _ _ _ _ _ _ _ _ _ h
  | receiveStateChanged modifyOk recId stateCode =>
    exact messageReceiveStateChanged_preserves _ _ _ _ h
  | received groupOf copyOk addOk moveOk modifyOk failModifyOk now recId mmsId
      sender toL cc subj date reportRead parts =>
    exact messageReceived_preserves _ _ _ _ _ _ _ _ _ _ _ _ _ _ _ _ _ h
  | send prohibited normalize groupOf copyOk addOk modifyOk failModifyOk
      prohibModifyOk now toL ccL bccL subject parts =>
    exact sendMessage_step_preserves _ _ _ _ _ _ _ _ _ _ _ _ _ _ _ h
  | sendFromEventId modifyOk eventId =>
    obtain ⟨hm, hni⟩ := hok
    subst hm
    exact sendMessageFromEventId_preserves _ _ hni h
  | sendFinished idOk eventId replyError replyValue modifyOk =>
    have hre : replyError = false := hok
    subst hre
    exact sendMessageFinished_preserves _ _ _ _ _ h
  | sent modifyOk recId mmsId =>
    exact messageSent_preserves _ _ _ _ h
  | dataProhibitedChanged prohibited =>
    exact onDataProhibitedChanged_preserves _ _ h

theorem goodState_init (p : Policy) : GoodState (initState p) :=
  ⟨⟨le_refl 1, fun e he => absurd he (List.not_mem_nil e)⟩, List.nodup_nil,
    fun id hid => absurd hid (List.not_mem_nil id)⟩

theorem run_preserves (steps : List Step) : ∀ (s : MmsState), GoodState s →
    goodTrace s steps → GoodState (run s steps) := by
  induction steps with
  | nil => intro s h _; exact h
  | cons st rest ih =>
    intro s h hg
    exact ih (step s st) (step_preserves s st h hg.1) hg.2

/-- C1: the Active Set invariant.  Provided every retry dispatch
(`sendMessageFromEvent(int)`) persists successfully and does not target an
id that is already in the set, and no `sendMessageFinished` callback
reports a transport error, every id in `m_activeEvents` after any sequence
of handler calls corresponds to a record whose last-set status is Waiting,
Downloading or Sending. -/
theorem active_set_invariant (p : Policy) (steps : List Step)
    (hg : goodTrace (initState p) steps) : ActiveInv (run (initState p) steps) :=
  (run_preserves steps (initState p) (goodState_init p) hg).2.2

theorem active_set_invariant_witness :
    goodTrace (initState ⟨none, none⟩)
        [sendOkStep, .sendFinished true 1 false "" true] ∧
      ActiveInv (run (initState ⟨none, none⟩)
        [sendOkStep, .sendFinished true 1 false "" true]) :=
  ⟨by decide, active_set_invariant ⟨none, none⟩
    [sendOkStep, .sendFinished true 1 false "" true] (by decide)⟩

/-- C1 is violated by the code as written: when the transport reply to a
dispatched send reports an error, `sendMessageFinished` (mmshandler.cpp
line 591) sets the record to TemporarilyFailed — a terminal status — but
does not remove the event id from `m_activeEvents`, so the Active Set then
holds an id whose record is not in progress. -/
theorem active_set_invariant_counterexample :
    ¬ ActiveInv (run (initState ⟨none, none⟩)
      [sendOkStep, .sendFinished true 1 true "" true]) := by decide

end Mms
